import Mathlib

/-! StlImporter: validation and decoding of binary STL buffers.

A shallow embedding of `MagnumPlugins/StlImporter/StlImporter.cpp`.

* Memory is a list of bytes; every read and write is bounds-checked and
  yields `none` where the C++ code would leave the buffer.
* `std::size_t` and `std::ptrdiff_t` are 64 bits wide, `UnsignedInt` is 32
  bits wide; arithmetic on them is written on `Nat` with an explicit
  reduction modulo the width.
* The host byte order (`CORRADE_TARGET_BIG_ENDIAN`) is a Boolean parameter.
* The content of memory allocated with `Containers::NoInit` is a parameter
  `uninit : Nat → Byte`, so nothing can be learnt from it.
-/

/-- One byte of memory (`char` seen as `unsigned char`). -/
abbrev Byte := Fin 256

/-- The width of `std::size_t` and `std::ptrdiff_t` in bits. -/
def sizeBits : Nat := 64

/-! ## Words and byte order (`Corrade/Utility/Endianness.h`) -/

/-- The value of an `UnsignedInt` or of the bit pattern of a `Float` whose
four bytes are `b0 b1 b2 b3` in increasing address order, as a host of the
given byte order loads it. -/
def loadWord (bigEndian : Bool) (b0 b1 b2 b3 : Byte) : Nat :=
  if bigEndian then b3.val + 2^8 * b2.val + 2^16 * b1.val + 2^24 * b0.val
  else b0.val + 2^8 * b1.val + 2^16 * b2.val + 2^24 * b3.val

/-- The little-endian reading of four bytes, whatever the host. -/
def leWord (b0 b1 b2 b3 : Byte) : Nat :=
  b0.val + 2^8 * b1.val + 2^16 * b2.val + 2^24 * b3.val

namespace Endianness

/-- `Utility::Endianness::swap()` on a 32-bit value: the four bytes in
reverse order. -/
def swap (v : Nat) : Nat :=
  (v % 2^8) * 2^24 + (v / 2^8 % 2^8) * 2^16 + (v / 2^16 % 2^8) * 2^8 + (v / 2^24 % 2^8)

/-- `Utility::Endianness::littleEndian()`: the identity on a little-endian
host, a byte swap on a big-endian one. -/
def littleEndian (bigEndian : Bool) (v : Nat) : Nat :=
  if bigEndian then swap v else v

end Endianness

/-! ## Memory, loops and strided views (`Corrade/Containers`, `Corrade/Utility`) -/

/-- Read `len` bytes at byte offset `off`; `none` when the range leaves the
buffer. -/
def readBytes (mem : List Byte) (off len : Nat) : Option (List Byte) :=
  if off + len ≤ mem.length then some ((mem.drop off).take len) else none

/-- Write the bytes `bs` at byte offset `off`; `none` when the range leaves
the buffer. -/
def writeBytes (mem : List Byte) (off : Nat) (bs : List Byte) : Option (List Byte) :=
  if off + bs.length ≤ mem.length then
    some (mem.take off ++ bs ++ mem.drop (off + bs.length))
  else none

/-- The loop `for(i = 0; i != n; ++i) body(i)` over a state, stopping at the
first failing step. -/
def forRange {σ : Type} (n : Nat) (body : Nat → σ → Option σ) (s : σ) : Option σ :=
  match n with
  | 0 => some s
  | k + 1 => (forRange k body s).bind (body k)

/-- `Containers::StridedArrayView1D<T>` over a buffer: byte offset of the
first element, element count, stride in bytes. -/
structure StridedArrayView1D where
  data : Nat
  size : Nat
  stride : Nat
deriving DecidableEq, Repr

/-- `Containers::StridedArrayView2D<T>` over a buffer: byte offset of the
first element, sizes and byte strides of the two dimensions. -/
structure StridedArrayView2D where
  data : Nat
  size : Nat × Nat
  stride : Nat × Nat
deriving DecidableEq, Repr

namespace StridedArrayView2D

/-- `transposed<0, 1>()`: the two dimensions exchanged. -/
def transposed (v : StridedArrayView2D) : StridedArrayView2D :=
  { data := v.data, size := (v.size.2, v.size.1), stride := (v.stride.2, v.stride.1) }

/-- `operator[](i)`: the one-dimensional view that is row `i`. -/
def row (v : StridedArrayView2D) (i : Nat) : StridedArrayView1D :=
  { data := v.data + i * v.stride.1, size := v.size.2, stride := v.stride.2 }

end StridedArrayView2D

/-- `Containers::arrayCast<2, Float>(view)` of a view on `Vector3`: a second
dimension of three floats, four bytes apart, is added. -/
def arrayCast2Float (v : StridedArrayView1D) : StridedArrayView2D :=
  { data := v.data, size := (v.size, 3), stride := (v.stride, 4) }

/-- `sizeof(Vector3)`: three floats. -/
def sizeofVector3 : Nat := 3 * 4

namespace Utility

/-- `Utility::copy(src, dst)` on two-dimensional strided views whose elements
are `elem` bytes wide: the sizes have to match, then element `(i, j)` of the
source is copied byte by byte to element `(i, j)` of the destination. The
result is the destination buffer afterwards. -/
def copy (elem : Nat) (srcMem : List Byte) (src : StridedArrayView2D)
    (dstMem : List Byte) (dst : StridedArrayView2D) : Option (List Byte) :=
  if src.size ≠ dst.size then none
  else
    forRange src.size.1 (fun i mem =>
      forRange src.size.2 (fun j mem => do
        let bytes ← readBytes srcMem (src.data + i * src.stride.1 + j * src.stride.2) elem
        writeBytes mem (dst.data + i * dst.stride.1 + j * dst.stride.2) bytes) mem) dstMem

end Utility

namespace Endianness

/-- `Utility::Endianness::swapInPlace()` on a strided view of 32-bit values:
the four bytes of every element are reversed. -/
def swapInPlace (mem : List Byte) (values : StridedArrayView1D) : Option (List Byte) :=
  forRange values.size (fun i mem => do
    let bytes ← readBytes mem (values.data + i * values.stride) 4
    writeBytes mem (values.data + i * values.stride) bytes.reverse) mem

/-- `Utility::Endianness::littleEndianInPlace()` on a strided view of 32-bit
values: `swapInPlace` on a big-endian host, nothing on a little-endian one. -/
def littleEndianInPlace (bigEndian : Bool) (mem : List Byte) (values : StridedArrayView1D) :
    Option (List Byte) :=
  if bigEndian then swapInPlace mem values else some mem

end Endianness

/-! ## Mesh data (`Magnum/Trade/MeshData.h`) -/

/-- `MeshPrimitive`. -/
inductive MeshPrimitive where
  | Points | Lines | LineLoop | LineStrip | Triangles | TriangleStrip | TriangleFan
deriving DecidableEq, Repr

/-- `Trade::MeshAttribute`. -/
inductive MeshAttribute where
  | Position | Normal | TextureCoordinates | Color
deriving DecidableEq, Repr

/-- `Trade::MeshAttributeData`: the attribute name and a strided view into the
vertex data of the mesh (byte offset, element count, byte stride). -/
structure MeshAttributeData where
  name : MeshAttribute
  data : StridedArrayView1D
deriving DecidableEq, Repr

/-- `Trade::MeshData`: primitive, vertex data and attribute list. -/
structure MeshData where
  primitive : MeshPrimitive
  vertexData : List Byte
  attributes : List MeshAttributeData
deriving DecidableEq, Repr

/-! ## The importer state and `openDataInternal` -/

/-- The importer instance: `Containers::Optional<Containers::Array<char>> _in`. -/
structure StlImporter where
  _in : Option (List Byte)
deriving DecidableEq, Repr

/-- The diagnostics `openDataInternal` and `doOpenFile` write to `Error{}`,
with the numbers each message carries. -/
inductive OpenError where
  /-- Message "file too short, got only N bytes". -/
  | fileTooShort (got : Nat)
  /-- Message "ASCII STL files are not supported". -/
  | asciiNotSupported
  /-- Message "file too short, expected at least 84 bytes but got N". -/
  | fileTooShortExpected (expected got : Nat)
  /-- Message "file size doesn't match triangle count, expected E but got N
  for T triangles". -/
  | sizeMismatch (expected got triangleCount : Nat)
  /-- Message "cannot open file F". -/
  | cannotOpenFile (filename : String)
deriving DecidableEq, Repr

/-- The file system as `doOpenFile` sees it (`Corrade/Utility/Directory.h`):
`Utility::Directory::exists()` and `Utility::Directory::read()`, the latter
returning an empty array for a file that cannot be read. -/
structure Directory where
  fileExists : String → Bool
  read : String → List Byte

/-- The string literal `"solid"` as bytes. -/
def solid : List Byte := [115, 111, 108, 105, 100]

/-- The input triangle is 12 floats (a normal and three vertices) and 2
extra bytes. -/
def InputTriangleStride : Nat := 12 * 4 + 2

namespace StlImporter

/-- `doIsOpened()`: `!!_in`. -/
def doIsOpened (self : StlImporter) : Bool := self._in.isSome

/-- `doClose()`: `_in = Containers::NullOpt`. -/
def doClose (_self : StlImporter) : StlImporter := { _in := none }

/-- `doMeshCount()`: the constant 1. -/
def doMeshCount (_self : StlImporter) : Nat := 1

/-- `openDataInternal(data)`: the checks in the order of the source, each
returning early with its diagnostic and the instance untouched; on success
`_in` takes the buffer. The result is the instance afterwards and the
diagnostic written, if any. -/
def openDataInternal (bigEndian : Bool) (self : StlImporter) (data : List Byte) :
    StlImporter × Option OpenError :=
  if data.length < 5 then
    (self, some (.fileTooShort data.length))
  else if data.take 5 = solid then
    (self, some .asciiNotSupported)
  else if h : data.length < 84 then
    (self, some (.fileTooShortExpected 84 data.length))
  else
    let triangleCount : Nat :=
      Endianness.littleEndian bigEndian
        (loadWord bigEndian data[80] data[81] data[82] data[83])
    let expectedSize : Nat := (InputTriangleStride * triangleCount) % 2^sizeBits
    if data.length ≠ (84 + expectedSize) % 2^sizeBits then
      (self, some (.sizeMismatch ((84 + expectedSize) % 2^sizeBits) data.length triangleCount))
    else
      ({ _in := some data }, none)

/-- `doOpenData(data)`: a private copy of the caller's view is made and
handed to `openDataInternal`. -/
def doOpenData (bigEndian : Bool) (self : StlImporter) (data : List Byte) :
    StlImporter × Option OpenError :=
  let copy : List Byte := data.map id
  openDataInternal bigEndian self copy

/-- `doOpenFile(filename)`: a file that does not exist gives the "cannot open
file" diagnostic; otherwise what `Utility::Directory::read()` returns is
handed to `openDataInternal`. -/
def doOpenFile (bigEndian : Bool) (directory : Directory) (self : StlImporter)
    (filename : String) : StlImporter × Option OpenError :=
  if !directory.fileExists filename then
    (self, some (.cannotOpenFile filename))
  else
    openDataInternal bigEndian self (directory.read filename)

/-- `doMesh()`: the held buffer without its 84-byte header is viewed as
triangle records, normals and positions are copied into a fresh vertex
buffer of 24 bytes per vertex, and every float of it is brought to the host
byte order. The result is the mesh (`none` where the C++ code would
dereference an empty `_in` or leave a buffer) and the instance afterwards. -/
def doMesh (bigEndian : Bool) (uninit : Nat → Byte) (self : StlImporter) :
    Option MeshData × StlImporter :=
  (do
    let held ← self._in
    let input ← if 84 ≤ held.length then some (held.drop 84) else none
    let triangleCount : Nat := input.length / InputTriangleStride
    let inputNormals : StridedArrayView2D :=
      { data := 0, size := (triangleCount, 3), stride := (InputTriangleStride, 0) }
    let inputPositions : StridedArrayView2D :=
      { data := sizeofVector3, size := (triangleCount, 3),
        stride := (InputTriangleStride, sizeofVector3) }
    let outputVertexStride : Nat := 6 * 4
    let vertexData : List Byte :=
      (List.range ((3 * outputVertexStride * triangleCount) % 2^sizeBits)).map uninit
    let outputPositions : StridedArrayView2D :=
      { data := 0, size := (triangleCount, 3),
        stride := (outputVertexStride * 3, outputVertexStride) }
    let outputNormals : StridedArrayView2D :=
      { data := sizeofVector3, size := (triangleCount, 3),
        stride := (outputVertexStride * 3, outputVertexStride) }
    let vertexData ← Utility.copy sizeofVector3 input inputNormals vertexData outputNormals
    let vertexData ← Utility.copy sizeofVector3 input inputPositions vertexData outputPositions
    let positions : StridedArrayView1D :=
      { data := 0, size := 3 * triangleCount, stride := outputVertexStride }
    let normals : StridedArrayView1D :=
      { data := sizeofVector3, size := 3 * triangleCount, stride := outputVertexStride }
    let positionComponents := (arrayCast2Float positions).transposed
    let vertexData ← forRange positionComponents.size.1 (fun c mem =>
      Endianness.littleEndianInPlace bigEndian mem (positionComponents.row c)) vertexData
    let normalComponents := (arrayCast2Float normals).transposed
    let vertexData ← forRange normalComponents.size.1 (fun c mem =>
      Endianness.littleEndianInPlace bigEndian mem (normalComponents.row c)) vertexData
    some { primitive := MeshPrimitive.Triangles, vertexData := vertexData,
           attributes := [{ name := MeshAttribute.Position, data := positions },
                          { name := MeshAttribute.Normal, data := normals }] },
   self)

end StlImporter

/-! ## OpenDDL properties (`MagnumPlugins/OpenGexImporter/OpenDdl/Property.h`) -/

namespace OpenDdl

/-- `Implementation::InternalPropertyType`, declared in `OpenDdl/Type.h`: the
members that `Property.h` names, and the member for a property whose value
is a type keyword (`Type` in the source). -/
inductive InternalPropertyType where
  | Bool | Integral | Float | String | Reference | Type_ | Character | Binary
deriving DecidableEq, Repr

/-- The types `T` for which `Implementation::isPropertyType<T>` is
specialised: `bool`, `Int`, `Float` and `std::string`. For any other `T` the
`static_assert` of the primary template stops the compilation. -/
inductive PropertyCType where
  | bool | int | float | string
deriving DecidableEq, Repr

/-- The values of each `T`; a `Float` is kept as its 32-bit pattern. -/
def PropertyCType.Value : PropertyCType → Type
  | .bool => Bool
  | .int => Int
  | .float => Nat
  | .string => String

/-- `Implementation::isPropertyType<T>(type)`, one case per specialisation. -/
def isPropertyType (T : PropertyCType) (type : InternalPropertyType) : Bool :=
  match T with
  | .bool => type == InternalPropertyType.Bool
  | .int => type == InternalPropertyType.Integral || type == InternalPropertyType.Binary ||
      type == InternalPropertyType.Character
  | .float => type == InternalPropertyType.Float
  | .string => type == InternalPropertyType.String || type == InternalPropertyType.Reference

/-- `Document::PropertyData`, declared in `OpenDdl/Document.h`: the fields
that `Property.h` reads. -/
structure PropertyData where
  identifier : Int
  type : InternalPropertyType
  position : Nat
deriving DecidableEq, Repr

/-- `Document`, declared in `OpenDdl/Document.h`: the property list and the
data arrays that `data<T>()` returns for the four types above. -/
structure Document where
  _bools : List Bool
  _ints : List Int
  _floats : List Nat
  _strings : List String
  _properties : List PropertyData
deriving DecidableEq, Repr

/-- `Document::data<T>()`: the data array of the document for `T`. -/
def Document.data (document : Document) : (T : PropertyCType) → List T.Value
  | .bool => document._bools
  | .int => document._ints
  | .float => document._floats
  | .string => document._strings

/-- `Property`: a reference to the document and one to its property data. -/
structure Property where
  _document : Document
  _data : PropertyData
deriving DecidableEq, Repr

/-- What a call of `Property::as<T>()` comes to. -/
inductive AsResult (α : Type) where
  /-- The value `_document.get().data<T>()[_data.get().position]`. -/
  | value (a : α)
  /-- The `CORRADE_ASSERT` fired: "not compatible with given type". -/
  | notCompatible
  /-- The index `position` is beyond the data array. -/
  | outOfRange

/-- `Property::identifier()`. -/
def Property.identifier (p : Property) : Int := p._data.identifier

/-- `Property::as<T>()`: the assertion on `isPropertyType<T>`, then the
element at `position` of the data array for `T`. -/
def Property.as (p : Property) (T : PropertyCType) : AsResult T.Value :=
  if !isPropertyType T p._data.type then AsResult.notCompatible
  else
    match (p._document.data T)[p._data.position]? with
    | some a => AsResult.value a
    | none => AsResult.outOfRange

/-- The private constructor `Property(document, i)`: the property data is
`document._properties[i]`. -/
def Property.ofIndex (document : Document) (i : Nat) : Option Property :=
  (document._properties[i]?).map (fun data => { _document := document, _data := data })

end OpenDdl

/-! ## Reading the buffers: words, byte indices, and the two scenario files -/

/-- The 32-bit word at byte offset `off` of a buffer, read little-endian. -/
def leU32At (b : List Byte) (off : Nat) : Nat :=
  leWord (b.getD off 0) (b.getD (off + 1) 0) (b.getD (off + 2) 0) (b.getD (off + 3) 0)

/-- The 32-bit word at byte offset `off` of a buffer, as the host loads it. -/
def nativeU32At (bigEndian : Bool) (b : List Byte) (off : Nat) : Nat :=
  loadWord bigEndian (b.getD off 0) (b.getD (off + 1) 0) (b.getD (off + 2) 0)
    (b.getD (off + 3) 0)

/-- The byte that the reversal of its 4-byte component puts at index `p`. -/
def mirror (p : Nat) : Nat := p - p % 4 + (3 - p % 4)

/-- The index in the held buffer of the byte that a little-endian host puts
at index `p` of the vertex buffer. -/
def sourceIndex (p : Nat) : Nat :=
  if p % 24 < 12 then 84 + 50 * (p / 72) + 12 + 12 * (p % 72 / 24) + p % 24
  else 84 + 50 * (p / 72) + (p % 24 - 12)

/-- Scenario A: 84 zero bytes, a header with triangle count 0 and no records. -/
def emptyMeshFile : List Byte := List.replicate 84 0

/-- Scenario B: a header with triangle count 1 and one record with normal
(0, 0, 1), positions (0, 0, 0), (1, 0, 0), (0, 1, 0) and two attribute bytes;
1.0f is the bytes 00 00 80 3F. -/
def oneTriangleFile : List Byte :=
  List.replicate 80 0 ++ [1, 0, 0, 0] ++
  [0, 0, 0, 0, 0, 0, 0, 0, 0, 0, 128, 63] ++
  [0, 0, 0, 0, 0, 0, 0, 0, 0, 0, 0, 0] ++
  [0, 0, 128, 63, 0, 0, 0, 0, 0, 0, 0, 0] ++
  [0, 0, 0, 0, 0, 0, 128, 63, 0, 0, 0, 0] ++ [7, 9]

/-- Scenario B decoded on a little-endian host: three vertices of 24 bytes,
positions (0, 0, 0), (1, 0, 0), (0, 1, 0), each followed by the normal
(0, 0, 1). -/
def oneTriangleVertexData : List Byte :=
  [0, 0, 0, 0, 0, 0, 0, 0, 0, 0, 0, 0] ++ [0, 0, 0, 0, 0, 0, 0, 0, 0, 0, 128, 63] ++
  [0, 0, 128, 63, 0, 0, 0, 0, 0, 0, 0, 0] ++ [0, 0, 0, 0, 0, 0, 0, 0, 0, 0, 128, 63] ++
  [0, 0, 0, 0, 0, 0, 128, 63, 0, 0, 0, 0] ++ [0, 0, 0, 0, 0, 0, 0, 0, 0, 0, 128, 63]

/-- Scenario B with another header text and other attribute bytes: bytes
[0, 80) are 120 and the two bytes after the record are 0. -/
def oneTriangleFileVariant : List Byte :=
  List.replicate 80 120 ++ [1, 0, 0, 0] ++
  [0, 0, 0, 0, 0, 0, 0, 0, 0, 0, 128, 63] ++
  [0, 0, 0, 0, 0, 0, 0, 0, 0, 0, 0, 0] ++
  [0, 0, 128, 63, 0, 0, 0, 0, 0, 0, 0, 0] ++
  [0, 0, 0, 0, 0, 0, 128, 63, 0, 0, 0, 0] ++ [0, 0]

/-- A document with one datum of each kind and four properties: a Bool, a
Character (kept with the integers), a Float and a Reference (kept with the
strings). -/
def OpenDdl.sampleDocument : OpenDdl.Document :=
  { _bools := [true], _ints := [7, 97], _floats := [1065353216],
    _strings := ["name", "ref"],
    _properties := [{ identifier := 0, type := OpenDdl.InternalPropertyType.Bool, position := 0 },
                    { identifier := 1, type := OpenDdl.InternalPropertyType.Character,
                      position := 1 },
                    { identifier := 2, type := OpenDdl.InternalPropertyType.Float,
                      position := 0 },
                    { identifier := 3, type := OpenDdl.InternalPropertyType.Reference,
                      position := 1 }] }

/-! ## Loops and single steps -/

/-- Invariant rule for `forRange`: an invariant that holds at the start and
that every step both preserves and completes under, holds at the end, and
the loop does not fail. -/
theorem forRange_inv {σ : Type} (Inv : Nat → σ → Prop) (n : Nat)
    (body : Nat → σ → Option σ) (s0 : σ) (h0 : Inv 0 s0)
    (hstep : ∀ i s, i < n → Inv i s → ∃ s', body i s = some s' ∧ Inv (i + 1) s') :
    ∃ s', forRange n body s0 = some s' ∧ Inv n s' := by
  induction n with
  | zero => exact ⟨s0, rfl, h0⟩
  | succ k ih =>
    obtain ⟨s1, h1, hI⟩ := ih (fun i s hi hs => hstep i s (Nat.lt_succ_of_lt hi) hs)
    obtain ⟨s2, h2, hI2⟩ := hstep k s1 (Nat.lt_succ_self k) hI
    exact ⟨s2, by simp [forRange, h1, h2], hI2⟩

/-- One element copy: `len` bytes read at `so` in `src` and written at `d`
in `dst`. Within bounds it succeeds, keeps the length, and changes exactly
the bytes `[d, d + len)`. -/
theorem copy_step (src dst : List Byte) (so d len : Nat)
    (hs : so + len ≤ src.length) (hd : d + len ≤ dst.length) :
    ∃ dst', (readBytes src so len).bind (writeBytes dst d) = some dst' ∧
      dst'.length = dst.length ∧
      ∀ p, dst'[p]? = if d ≤ p ∧ p < d + len then src[so + (p - d)]? else dst[p]? := by
  have hlen : ((src.drop so).take len).length = len := by
    simp [List.length_take, List.length_drop]; omega
  refine ⟨dst.take d ++ (src.drop so).take len ++ dst.drop (d + len), ?_, ?_, ?_⟩
  · simp only [readBytes, hs, if_true, Option.some_bind, writeBytes, hlen, hd]
  · simp only [List.length_append, List.length_take, List.length_drop, hlen]; omega
  · intro p
    have htk : (dst.take d).length = d := by simp [List.length_take]; omega
    by_cases h1 : p < d
    · have : ¬ (d ≤ p ∧ p < d + len) := by omega
      rw [if_neg this, List.append_assoc, List.getElem?_append_left (by omega),
        List.getElem?_take_of_lt h1]
    · by_cases h2 : p < d + len
      · rw [if_pos ⟨by omega, h2⟩, List.append_assoc, List.getElem?_append_right (by omega),
          htk, List.getElem?_append_left (by omega), List.getElem?_take_of_lt (by omega),
          List.getElem?_drop]
      · have : ¬ (d ≤ p ∧ p < d + len) := by omega
        rw [if_neg this, List.getElem?_append_right (by
          simp only [List.length_append, htk, hlen]; omega)]
        simp only [List.length_append, htk, hlen, List.getElem?_drop]
        congr 1; omega

/-- One in-place swap: the four bytes at `off` are reversed. Within bounds it
succeeds, keeps the length, and changes exactly the bytes `[off, off + 4)`. -/
theorem swap_step (mem : List Byte) (off : Nat) (h : off + 4 ≤ mem.length) :
    ∃ mem', (readBytes mem off 4).bind (fun bs => writeBytes mem off bs.reverse) = some mem' ∧
      mem'.length = mem.length ∧
      ∀ p, mem'[p]? =
        if off ≤ p ∧ p < off + 4 then mem[off + (3 - (p - off))]? else mem[p]? := by
  have hlen : ((mem.drop off).take 4).length = 4 := by
    simp [List.length_take, List.length_drop]; omega
  have hrl : ((mem.drop off).take 4).reverse.length = 4 := by
    rw [List.length_reverse, hlen]
  refine ⟨mem.take off ++ ((mem.drop off).take 4).reverse ++ mem.drop (off + 4), ?_, ?_, ?_⟩
  · simp only [readBytes, h, if_true, Option.some_bind, writeBytes, hrl]
  · simp only [List.length_append, List.length_take, List.length_drop, hrl]; omega
  · intro p
    have htk : (mem.take off).length = off := by simp [List.length_take]; omega
    by_cases h1 : p < off
    · have : ¬ (off ≤ p ∧ p < off + 4) := by omega
      rw [if_neg this, List.append_assoc, List.getElem?_append_left (by omega),
        List.getElem?_take_of_lt h1]
    · by_cases h2 : p < off + 4
      · rw [if_pos ⟨by omega, h2⟩, List.append_assoc, List.getElem?_append_right (by omega),
          htk, List.getElem?_append_left (by omega), List.getElem?_reverse (by omega), hlen,
          List.getElem?_take_of_lt (by omega), List.getElem?_drop]
      · have : ¬ (off ≤ p ∧ p < off + 4) := by omega
        rw [if_neg this, List.getElem?_append_right (by
          simp only [List.length_append, htk, hrl]; omega)]
        simp only [List.length_append, htk, hrl, List.getElem?_drop]
        congr 1; omega

/-! ## The four passes of `doMesh` over the vertex buffer -/

/-- The copy of the normals: every byte of a normal field of the output
comes from the normal of its triangle, all other bytes are left alone. -/
theorem copy_normals (input dst0 : List Byte) (n : Nat)
    (hin : 50 * n ≤ input.length) (hd : dst0.length = 72 * n) :
    ∃ m, Utility.copy 12 input { data := 0, size := (n, 3), stride := (50, 0) }
        dst0 { data := 12, size := (n, 3), stride := (72, 24) } = some m ∧
      m.length = 72 * n ∧
      ∀ p, m[p]? = if p < 72 * n ∧ 12 ≤ p % 24 then input[50 * (p / 72) + (p % 24 - 12)]?
                   else dst0[p]? := by
  simp only [Utility.copy, ne_eq, not_true_eq_false, if_false]
  exact forRange_inv
    (fun i m => m.length = 72 * n ∧
      ∀ p, m[p]? = if p < 72 * i ∧ 12 ≤ p % 24 then input[50 * (p / 72) + (p % 24 - 12)]?
                   else dst0[p]?)
    n _ dst0 ⟨hd, fun p => by simp⟩
    (fun i m hi hI => by
      obtain ⟨m', hm', hl', hp'⟩ := forRange_inv
        (fun j m => m.length = 72 * n ∧
          ∀ p, m[p]? = if p < 72 * i + 24 * j ∧ 12 ≤ p % 24 then
                          input[50 * (p / 72) + (p % 24 - 12)]?
                       else dst0[p]?)
        3 (fun j mem => do
          let bytes ← readBytes input (0 + i * 50 + j * 0) 12
          writeBytes mem (12 + i * 72 + j * 24) bytes) m hI
        (fun j mj hj hJ => by
          obtain ⟨m2, h2, hl2, hp2⟩ := copy_step input mj (0 + i * 50 + j * 0)
            (12 + i * 72 + j * 24) 12 (by omega) (by omega)
          refine ⟨m2, h2, by omega, fun p => ?_⟩
          rw [hp2 p, hJ.2 p]
          by_cases hr : 12 + i * 72 + j * 24 ≤ p ∧ p < 12 + i * 72 + j * 24 + 12
          · rw [if_pos hr, if_pos (by omega)]
            congr 1; omega
          · rw [if_neg hr]
            by_cases hq : p < 72 * i + 24 * j ∧ 12 ≤ p % 24
            · rw [if_pos hq, if_pos (by omega)]
            · rw [if_neg hq, if_neg (by omega)])
      exact ⟨m', hm', hl', fun p => by rw [hp' p]; exact if_congr (by omega) rfl rfl⟩)

/-- The copy of the positions: every byte of a position field of the output
comes from the position of its vertex, all other bytes are left alone. -/
theorem copy_positions (input dst0 : List Byte) (n : Nat)
    (hin : 50 * n ≤ input.length) (hd : dst0.length = 72 * n) :
    ∃ m, Utility.copy 12 input { data := 12, size := (n, 3), stride := (50, 12) }
        dst0 { data := 0, size := (n, 3), stride := (72, 24) } = some m ∧
      m.length = 72 * n ∧
      ∀ p, m[p]? = if p < 72 * n ∧ p % 24 < 12 then
                      input[50 * (p / 72) + 12 + 12 * (p % 72 / 24) + p % 24]?
                   else dst0[p]? := by
  simp only [Utility.copy, ne_eq, not_true_eq_false, if_false]
  exact forRange_inv
    (fun i m => m.length = 72 * n ∧
      ∀ p, m[p]? = if p < 72 * i ∧ p % 24 < 12 then
                      input[50 * (p / 72) + 12 + 12 * (p % 72 / 24) + p % 24]?
                   else dst0[p]?)
    n _ dst0 ⟨hd, fun p => by simp⟩
    (fun i m hi hI => by
      obtain ⟨m', hm', hl', hp'⟩ := forRange_inv
        (fun j m => m.length = 72 * n ∧
          ∀ p, m[p]? = if p < 72 * i + 24 * j ∧ p % 24 < 12 then
                          input[50 * (p / 72) + 12 + 12 * (p % 72 / 24) + p % 24]?
                       else dst0[p]?)
        3 (fun j mem => do
          let bytes ← readBytes input (12 + i * 50 + j * 12) 12
          writeBytes mem (0 + i * 72 + j * 24) bytes) m hI
        (fun j mj hj hJ => by
          obtain ⟨m2, h2, hl2, hp2⟩ := copy_step input mj (12 + i * 50 + j * 12)
            (0 + i * 72 + j * 24) 12 (by omega) (by omega)
          refine ⟨m2, h2, by omega, fun p => ?_⟩
          rw [hp2 p, hJ.2 p]
          by_cases hr : 0 + i * 72 + j * 24 ≤ p ∧ p < 0 + i * 72 + j * 24 + 12
          · rw [if_pos hr, if_pos (by omega)]
            congr 1; omega
          · rw [if_neg hr]
            by_cases hq : p < 72 * i + 24 * j ∧ p % 24 < 12
            · rw [if_pos hq, if_pos (by omega)]
            · rw [if_neg hq, if_neg (by omega)])
      exact ⟨m', hm', hl', fun p => by rw [hp' p]; exact if_congr (by omega) rfl rfl⟩)

/-- The normalizer on a big-endian host, for the three float components of
the 12-byte field at offset `o` of each of `N` vertices: every component of
that field has its bytes reversed, all other bytes are left alone. -/
theorem swap_components (mem0 : List Byte) (N o : Nat) (ho : o = 0 ∨ o = 12)
    (hl : mem0.length = 24 * N) :
    ∃ m, forRange 3 (fun c mem =>
        Endianness.littleEndianInPlace true mem { data := o + c * 4, size := N, stride := 24 })
        mem0 = some m ∧
      m.length = 24 * N ∧
      ∀ p, m[p]? = if p < 24 * N ∧ o ≤ p % 24 ∧ p % 24 < o + 12 then mem0[mirror p]?
                   else mem0[p]? := by
  obtain ⟨m, hm, hlm, hpm⟩ := forRange_inv
    (fun c m => m.length = 24 * N ∧
      ∀ p, m[p]? = if p < 24 * N ∧ o ≤ p % 24 ∧ p % 24 < o + 4 * c then mem0[mirror p]?
                   else mem0[p]?)
    3 (fun c mem =>
        Endianness.littleEndianInPlace true mem { data := o + c * 4, size := N, stride := 24 })
    mem0 ⟨hl, fun p => by rw [if_neg (by omega)]⟩
    (fun c m hc hI => by
      simp only [Endianness.littleEndianInPlace, if_true, Endianness.swapInPlace]
      obtain ⟨m', hm', hl', hp'⟩ := forRange_inv
        (fun i m => m.length = 24 * N ∧
          ∀ p, m[p]? = if (p < 24 * N ∧ o ≤ p % 24 ∧ p % 24 < o + 4 * c) ∨
                          (p < 24 * i ∧ o + 4 * c ≤ p % 24 ∧ p % 24 < o + 4 * c + 4) then
                          mem0[mirror p]?
                       else mem0[p]?)
        N (fun i mem => do
          let bytes ← readBytes mem (o + c * 4 + i * 24) 4
          writeBytes mem (o + c * 4 + i * 24) bytes.reverse) m
        ⟨hI.1, fun p => by rw [hI.2 p]; exact if_congr (by omega) rfl rfl⟩
        (fun i mi hi hJ => by
          obtain ⟨m2, h2, hl2, hp2⟩ := swap_step mi (o + c * 4 + i * 24) (by omega)
          refine ⟨m2, h2, by omega, fun p => ?_⟩
          rw [hp2 p]
          by_cases hr : o + c * 4 + i * 24 ≤ p ∧ p < o + c * 4 + i * 24 + 4
          · rw [if_pos hr, hJ.2, if_neg (by omega), if_pos (by omega)]
            congr 1; unfold mirror; omega
          · rw [if_neg hr, hJ.2 p]
            exact if_congr (by omega) rfl rfl)
      exact ⟨m', hm', hl', fun p => by rw [hp' p]; exact if_congr (by omega) rfl rfl⟩)
  exact ⟨m, hm, hlm, fun p => by rw [hpm p]⟩

/-- The whole of `doMesh` on a held buffer of `84 + 50 * n` bytes: it returns
a triangle mesh with the two attribute views, leaves the instance alone, and
byte `p` of the `72 * n` bytes of vertex data is the source byte at
`sourceIndex p`, with the bytes of each component mirrored on a big-endian
host. -/
theorem doMesh_spec (bigEndian : Bool) (uninit : Nat → Byte) (held : List Byte) (n : Nat)
    (hlen : held.length = 84 + 50 * n) (hn : 72 * n < 2 ^ 64) :
    ∃ vd, StlImporter.doMesh bigEndian uninit { _in := some held } =
        (some { primitive := MeshPrimitive.Triangles, vertexData := vd,
                attributes := [{ name := MeshAttribute.Position,
                                 data := { data := 0, size := 3 * n, stride := 24 } },
                               { name := MeshAttribute.Normal,
                                 data := { data := 12, size := 3 * n, stride := 24 } }] },
         { _in := some held }) ∧
      vd.length = 72 * n ∧
      ∀ p, p < 72 * n → vd[p]? = held[sourceIndex (if bigEndian then mirror p else p)]? := by
  have h84 : 84 ≤ held.length := by omega
  have hin : (held.drop 84).length = 50 * n := by rw [List.length_drop]; omega
  have htc : (held.drop 84).length / 50 = n := by rw [hin]; simp
  have hsz : 72 * n % 2 ^ sizeBits = 72 * n := Nat.mod_eq_of_lt hn
  obtain ⟨m1, h1, l1, p1⟩ := copy_normals (held.drop 84) ((List.range (72 * n)).map uninit) n
    (by omega) (by simp)
  obtain ⟨m2, h2, l2, p2⟩ := copy_positions (held.drop 84) m1 n (by omega) l1
  simp only [StlImporter.doMesh, Option.bind_eq_bind, Option.some_bind, h84, if_true, htc, hsz,
    sizeofVector3, InputTriangleStride, Nat.reduceMul, Nat.reduceAdd, h1, h2,
    arrayCast2Float, StridedArrayView2D.transposed, StridedArrayView2D.row]
  have hm2 : ∀ q, q < 72 * n → m2[q]? = held[sourceIndex q]? := by
    intro q hq
    rw [p2 q, sourceIndex]
    by_cases hf : q % 24 < 12
    · rw [if_pos ⟨hq, hf⟩, if_pos hf, List.getElem?_drop]
      congr 1; omega
    · rw [if_neg (by omega), if_neg hf, p1 q, if_pos ⟨hq, by omega⟩, List.getElem?_drop]
      congr 1; omega
  cases bigEndian with
  | false =>
    refine ⟨m2, ?_, l2, fun p hp => ?_⟩
    · simp [forRange, Endianness.littleEndianInPlace]
    · simpa using hm2 p hp
  | true =>
    obtain ⟨m3, h3, l3, p3⟩ := swap_components m2 (3 * n) 0 (Or.inl rfl) (by omega)
    obtain ⟨m4, h4, l4, p4⟩ := swap_components m3 (3 * n) 12 (Or.inr rfl) (by omega)
    refine ⟨m4, ?_, by omega, fun p hp => ?_⟩
    · rw [h3, Option.some_bind, h4, Option.some_bind]
    · have hmp : mirror p < 72 * n := by unfold mirror; omega
      have hmm : mirror p % 24 < 12 ↔ p % 24 < 12 := by unfold mirror; omega
      rw [if_pos rfl, ← hm2 _ hmp, p4 p]
      by_cases hf : p % 24 < 12
      · rw [if_neg (by omega), p3 p, if_pos (by omega)]
      · rw [if_pos (by omega), p3 (mirror p), if_neg (by omega)]

/-! ## Words and the checks of `openDataInternal` -/

/-- A word loaded by the host and passed through `littleEndian()` is the
little-endian reading of its bytes, on both hosts. -/
theorem littleEndian_loadWord (bigEndian : Bool) (b0 b1 b2 b3 : Byte) :
    Endianness.littleEndian bigEndian (loadWord bigEndian b0 b1 b2 b3) = leWord b0 b1 b2 b3 := by
  have h0 := b0.isLt
  have h1 := b1.isLt
  have h2 := b2.isLt
  have h3 := b3.isLt
  cases bigEndian with
  | false => simp [Endianness.littleEndian, loadWord, leWord]
  | true =>
    simp only [Endianness.littleEndian, loadWord, leWord, if_true, Endianness.swap]
    norm_num
    omega

/-- A little-endian word of four bytes fits 32 bits. -/
theorem leWord_lt (b0 b1 b2 b3 : Byte) : leWord b0 b1 b2 b3 < 2 ^ 32 := by
  have h0 := b0.isLt
  have h1 := b1.isLt
  have h2 := b2.isLt
  have h3 := b3.isLt
  simp only [leWord]
  norm_num
  omega

/-- The checks of `openDataInternal` with the arithmetic carried out: the
triangle count is the little-endian word at offset 80 on both hosts, and
the expected size `84 + 50 * count` does not wrap. -/
theorem openDataInternal_eq (bigEndian : Bool) (s : StlImporter) (b : List Byte) :
    StlImporter.openDataInternal bigEndian s b =
      if b.length < 5 then (s, some (OpenError.fileTooShort b.length))
      else if b.take 5 = solid then (s, some OpenError.asciiNotSupported)
      else if b.length < 84 then (s, some (OpenError.fileTooShortExpected 84 b.length))
      else if b.length ≠ 84 + 50 * leU32At b 80 then
        (s, some (OpenError.sizeMismatch (84 + 50 * leU32At b 80) b.length (leU32At b 80)))
      else ({ _in := some b }, none) := by
  unfold StlImporter.openDataInternal
  by_cases h5 : b.length < 5
  · simp only [h5, if_true]
  · by_cases hs : b.take 5 = solid
    · simp only [h5, hs, if_true, if_false]
    · by_cases h84 : b.length < 84
      · simp only [h5, hs, h84, if_true, if_false, dite_true]
      · have hcount : Endianness.littleEndian bigEndian
            (loadWord bigEndian (b[80]) (b[81]) (b[82]) (b[83])) = leU32At b 80 := by
          rw [littleEndian_loadWord, leU32At]
          simp [List.getD_eq_getElem?_getD, List.getElem?_eq_getElem, show 80 < b.length by omega,
            show 81 < b.length by omega, show 82 < b.length by omega,
            show 83 < b.length by omega]
        have hlt : leU32At b 80 < 2 ^ 32 := leWord_lt _ _ _ _
        have he : (InputTriangleStride * leU32At b 80) % 2 ^ sizeBits = 50 * leU32At b 80 := by
          simp only [InputTriangleStride, sizeBits]
          exact Nat.mod_eq_of_lt (by omega)
        have he2 : (84 + 50 * leU32At b 80) % 2 ^ sizeBits = 84 + 50 * leU32At b 80 := by
          simp only [sizeBits]
          exact Nat.mod_eq_of_lt (by omega)
        simp only [h5, hs, h84, if_false, dite_false, hcount, he, he2]

/-- The copy that `doOpenData` makes has the bytes of the original, so
`doOpenData` is `openDataInternal` on the caller's bytes. -/
theorem doOpenData_eq (bigEndian : Bool) (s : StlImporter) (b : List Byte) :
    StlImporter.doOpenData bigEndian s b = StlImporter.openDataInternal bigEndian s b := by
  simp [StlImporter.doOpenData]

/-- Success of `doOpenData` in terms of the buffer alone. -/
theorem doOpenData_success_iff (bigEndian : Bool) (s : StlImporter) (b : List Byte) :
    StlImporter.doOpenData bigEndian s b = ({ _in := some b }, none) ↔
      84 ≤ b.length ∧ b.take 5 ≠ solid ∧ b.length = 84 + 50 * leU32At b 80 := by
  rw [doOpenData_eq, openDataInternal_eq]
  split_ifs with h1 h2 h3 h4
  · simp; omega
  · simp [h2]
  · simp; omega
  · simp [h4]
  · simp only [true_iff]
    exact ⟨by omega, h2, not_not.mp h4⟩

/-- No diagnostic means the buffer is held. -/
theorem doOpenData_no_error_iff (bigEndian : Bool) (s : StlImporter) (b : List Byte) :
    (StlImporter.doOpenData bigEndian s b).2 = none ↔
      StlImporter.doOpenData bigEndian s b = ({ _in := some b }, none) := by
  rw [doOpenData_eq, openDataInternal_eq]
  split_ifs with h1 h2 h3 h4 <;> simp

/-- A diagnostic means the instance is the one before the call. -/
theorem doOpenData_error_state (bigEndian : Bool) (s : StlImporter) (b : List Byte)
    (h : (StlImporter.doOpenData bigEndian s b).2 ≠ none) :
    (StlImporter.doOpenData bigEndian s b).1 = s := by
  rw [doOpenData_eq, openDataInternal_eq] at *
  split_ifs at * with h1 h2 h3 h4
  · rfl
  · rfl
  · rfl
  · rfl
  · exact absurd rfl h

/-! ## Opening: claims C1, C3, C4, C5, C10 -/

/-- C1: `doOpenData` succeeds (no diagnostic, the buffer is held) exactly
when the buffer has at least 84 bytes, does not start with "solid", and has
`84 + 50 * n` bytes for `n` the little-endian 32-bit word at bytes [80, 84),
on both host byte orders; so the buffer held after a successful open has
`84 + 50 * n` bytes. -/
theorem C1_open_succeeds_iff_valid (bigEndian : Bool) (s : StlImporter) (b : List Byte) :
    leU32At b 80 = (b.getD 80 0).val + 2 ^ 8 * (b.getD 81 0).val +
        2 ^ 16 * (b.getD 82 0).val + 2 ^ 24 * (b.getD 83 0).val ∧
    ((StlImporter.doOpenData bigEndian s b).2 = none ↔
      84 ≤ b.length ∧ b.take 5 ≠ solid ∧ b.length = 84 + 50 * leU32At b 80) ∧
    ((StlImporter.doOpenData bigEndian s b).2 = none ↔
      StlImporter.doOpenData bigEndian s b = ({ _in := some b }, none)) ∧
    ((StlImporter.doOpenData bigEndian s b).2 = none →
      ∃ held, (StlImporter.doOpenData bigEndian s b).1._in = some held ∧ held = b ∧
        84 + 50 * leU32At held 80 = held.length) := by
  refine ⟨rfl, ?_, doOpenData_no_error_iff bigEndian s b, fun h => ?_⟩
  · rw [doOpenData_no_error_iff, doOpenData_success_iff]
  · have h2 := (doOpenData_no_error_iff bigEndian s b).1 h
    have h3 := (doOpenData_success_iff bigEndian s b).1 h2
    exact ⟨b, by rw [h2], rfl, h3.2.2.symm⟩

set_option maxRecDepth 100000 in
/-- C1 at the one-triangle file on a big-endian host: it is accepted and
held, and `84 + 50 * 1` is its length. -/
theorem C1_open_succeeds_iff_valid_witness :
    (StlImporter.doOpenData true { _in := none } oneTriangleFile).2 = none ∧
    ∃ held, (StlImporter.doOpenData true { _in := none } oneTriangleFile).1._in = some held ∧
      held = oneTriangleFile ∧ 84 + 50 * leU32At held 80 = held.length :=
  ⟨by decide,
   (C1_open_succeeds_iff_valid true { _in := none } oneTriangleFile).2.2.2 (by decide)⟩

/-- C3: a buffer of at least five bytes that starts with "solid" is refused
with the ASCII diagnostic whatever follows and whatever its length; the
instance is left as it was, so the buffer is not held. -/
theorem C3_solid_is_refused (bigEndian : Bool) (s : StlImporter) (b : List Byte)
    (hlen : 5 ≤ b.length) (hsolid : b.take 5 = solid) :
    StlImporter.doOpenData bigEndian s b = (s, some OpenError.asciiNotSupported) := by
  rw [doOpenData_eq, openDataInternal_eq, if_neg (by omega), if_pos hsolid]

set_option maxRecDepth 100000 in
/-- C3 at two buffers: "solid" alone, and an 84-byte buffer that starts with
"solid" and whose count field 0 agrees with its length. -/
theorem C3_solid_is_refused_witness :
    (5 ≤ solid.length ∧ solid.take 5 = solid ∧
      StlImporter.doOpenData false { _in := none } solid =
        ({ _in := none }, some OpenError.asciiNotSupported)) ∧
    (5 ≤ (solid ++ List.replicate 79 0).length ∧
      (solid ++ List.replicate 79 0).take 5 = solid ∧
      (solid ++ List.replicate 79 0).length =
        84 + 50 * leU32At (solid ++ List.replicate 79 0) 80 ∧
      StlImporter.doOpenData false { _in := none } (solid ++ List.replicate 79 0) =
        ({ _in := none }, some OpenError.asciiNotSupported)) :=
  ⟨⟨by decide, by decide,
    C3_solid_is_refused false { _in := none } solid (by decide) (by decide)⟩,
   ⟨by decide, by decide, by decide,
    C3_solid_is_refused false { _in := none } (solid ++ List.replicate 79 0)
      (by decide) (by decide)⟩⟩

/-- C4: a buffer of fewer than five bytes is refused as too short with its
length in the diagnostic; a buffer of five to 83 bytes that does not start
with "solid" is refused as too short with the minimum 84 and its length in
the diagnostic. The instance is left as it was. -/
theorem C4_too_short (bigEndian : Bool) (s : StlImporter) (b : List Byte) :
    (b.length < 5 →
      StlImporter.doOpenData bigEndian s b = (s, some (OpenError.fileTooShort b.length))) ∧
    (5 ≤ b.length → b.length < 84 → b.take 5 ≠ solid →
      StlImporter.doOpenData bigEndian s b =
        (s, some (OpenError.fileTooShortExpected 84 b.length))) := by
  refine ⟨fun h => ?_, fun h5 h84 hs => ?_⟩
  · rw [doOpenData_eq, openDataInternal_eq, if_pos h]
  · rw [doOpenData_eq, openDataInternal_eq, if_neg (by omega), if_neg hs, if_pos h84]

set_option maxRecDepth 100000 in
/-- C4 at the empty buffer, at the proper prefix "soli" of "solid", and at
83 zero bytes. -/
theorem C4_too_short_witness :
    StlImporter.doOpenData false { _in := none } [] =
      ({ _in := none }, some (OpenError.fileTooShort 0)) ∧
    StlImporter.doOpenData false { _in := none } [115, 111, 108, 105] =
      ({ _in := none }, some (OpenError.fileTooShort 4)) ∧
    StlImporter.doOpenData false { _in := none } (List.replicate 83 0) =
      ({ _in := none }, some (OpenError.fileTooShortExpected 84 83)) :=
  ⟨(C4_too_short false { _in := none } []).1 (by decide),
   (C4_too_short false { _in := none } [115, 111, 108, 105]).1 (by decide),
   (C4_too_short false { _in := none } (List.replicate 83 0)).2
     (by decide) (by decide) (by decide)⟩

/-- C5: a buffer of at least 84 bytes that does not start with "solid" and
whose length is not `84 + 50 * n`, for `n` the little-endian word at bytes
[80, 84), is refused with the size diagnostic carrying the expected size
`84 + 50 * n`, the length and `n`; and the size diagnostic is written only
for such buffers. -/
theorem C5_size_mismatch (bigEndian : Bool) (s : StlImporter) (b : List Byte) :
    (84 ≤ b.length → b.take 5 ≠ solid → b.length ≠ 84 + 50 * leU32At b 80 →
      StlImporter.doOpenData bigEndian s b =
        (s, some (OpenError.sizeMismatch (84 + 50 * leU32At b 80) b.length (leU32At b 80)))) ∧
    (∀ e g t, (StlImporter.doOpenData bigEndian s b).2 = some (OpenError.sizeMismatch e g t) →
      84 ≤ b.length ∧ b.take 5 ≠ solid ∧ b.length ≠ 84 + 50 * leU32At b 80 ∧
      e = 84 + 50 * leU32At b 80 ∧ g = b.length ∧ t = leU32At b 80) := by
  refine ⟨fun h84 hs hm => ?_, fun e g t h => ?_⟩
  · rw [doOpenData_eq, openDataInternal_eq, if_neg (by omega), if_neg hs, if_neg (by omega),
      if_pos hm]
  · rw [doOpenData_eq, openDataInternal_eq] at h
    split_ifs at h with h1 h2 h3 h4
    · simp at h
    · simp at h
    · simp at h
    · simp only [Option.some.injEq, OpenError.sizeMismatch.injEq] at h
      exact ⟨by omega, h2, h4, h.1.symm, h.2.1.symm, h.2.2.symm⟩

set_option maxRecDepth 100000 in
/-- C5 at 85 zero bytes: expected 84, got 85, for 0 triangles. -/
theorem C5_size_mismatch_witness :
    StlImporter.doOpenData false { _in := none } (List.replicate 85 0) =
      ({ _in := none }, some (OpenError.sizeMismatch 84 85 0)) :=
  (C5_size_mismatch false { _in := none } (List.replicate 85 0)).1
    (by decide) (by decide) (by decide)

/-- C10: when `doOpenData` writes a diagnostic, the instance afterwards is
the instance before the call: the same held buffer, the same `doIsOpened`. -/
theorem C10_failed_open_keeps_state (bigEndian : Bool) (s : StlImporter) (b : List Byte)
    (hfail : (StlImporter.doOpenData bigEndian s b).2 ≠ none) :
    (StlImporter.doOpenData bigEndian s b).1 = s ∧
    (StlImporter.doOpenData bigEndian s b).1._in = s._in ∧
    (StlImporter.doOpenData bigEndian s b).1.doIsOpened = s.doIsOpened := by
  have h := doOpenData_error_state bigEndian s b hfail
  exact ⟨h, by rw [h], by rw [h]⟩

set_option maxRecDepth 100000 in
/-- C10 at an instance that holds the one-triangle file and is given 83 zero
bytes: the file stays held. -/
theorem C10_failed_open_keeps_state_witness :
    (StlImporter.doOpenData false { _in := some oneTriangleFile } (List.replicate 83 0)).2
      ≠ none ∧
    (StlImporter.doOpenData false { _in := some oneTriangleFile } (List.replicate 83 0)).1 =
      { _in := some oneTriangleFile } ∧
    (StlImporter.doOpenData false { _in := some oneTriangleFile } (List.replicate 83 0)).1._in =
      some oneTriangleFile ∧
    (StlImporter.doOpenData false { _in := some oneTriangleFile }
      (List.replicate 83 0)).1.doIsOpened = true :=
  ⟨by decide,
   C10_failed_open_keeps_state false { _in := some oneTriangleFile } (List.replicate 83 0)
     (by decide)⟩

/-! ## Decoding an opened buffer -/

/-- After a successful `doOpenData` the buffer is held, its length is
`84 + 50 * n` for the count `n` of its header, and `72 * n` fits `size_t`. -/
theorem opened_shape (bigEndian : Bool) (s0 : StlImporter) (b : List Byte)
    (hopen : (StlImporter.doOpenData bigEndian s0 b).2 = none) :
    (StlImporter.doOpenData bigEndian s0 b).1 = { _in := some b } ∧
    b.length = 84 + 50 * leU32At b 80 ∧ 72 * leU32At b 80 < 2 ^ 64 := by
  have h2 := (doOpenData_no_error_iff bigEndian s0 b).1 hopen
  have h3 := (doOpenData_success_iff bigEndian s0 b).1 h2
  have hlt : leU32At b 80 < 2 ^ 32 := leWord_lt _ _ _ _
  exact ⟨by rw [h2], h3.2.2, by omega⟩

/-- Acceptance does not depend on the host byte order. -/
theorem doOpenData_host_independent (h0 h1 : Bool) (s0 : StlImporter) (b : List Byte)
    (hopen : (StlImporter.doOpenData h0 s0 b).2 = none) :
    (StlImporter.doOpenData h1 s0 b).2 = none := by
  rw [doOpenData_no_error_iff, doOpenData_success_iff] at *
  exact hopen

/-- The result of `doMesh` on the instance left by a successful `doOpenData`. -/
theorem doMesh_opened (bigEndian : Bool) (uninit : Nat → Byte) (s0 : StlImporter)
    (b : List Byte) (hopen : (StlImporter.doOpenData bigEndian s0 b).2 = none) :
    ∃ vd, StlImporter.doMesh bigEndian uninit (StlImporter.doOpenData bigEndian s0 b).1 =
        (some { primitive := MeshPrimitive.Triangles, vertexData := vd,
                attributes := [{ name := MeshAttribute.Position,
                                 data := { data := 0, size := 3 * leU32At b 80, stride := 24 } },
                               { name := MeshAttribute.Normal,
                                 data := { data := 12, size := 3 * leU32At b 80,
                                           stride := 24 } }] },
         { _in := some b }) ∧
      vd.length = 72 * leU32At b 80 ∧
      ∀ p, p < 72 * leU32At b 80 →
        vd[p]? = b[sourceIndex (if bigEndian then mirror p else p)]? := by
  obtain ⟨hs, hl, hn⟩ := opened_shape bigEndian s0 b hopen
  rw [hs]
  exact doMesh_spec bigEndian uninit b (leU32At b 80) hl hn

/-- A component of the vertex data, loaded by the host, is the little-endian
reading of its four source bytes. -/
theorem component_word (bigEndian : Bool) (vd b : List Byte) (n o : Nat)
    (ho : o % 4 = 0) (hlt : o + 4 ≤ 72 * n)
    (hp : ∀ p, p < 72 * n → vd[p]? = b[sourceIndex (if bigEndian then mirror p else p)]?) :
    nativeU32At bigEndian vd o = leU32At b (sourceIndex o) := by
  have hs : ∀ k, k < 4 → sourceIndex (o + k) = sourceIndex o + k := by
    intro k hk
    unfold sourceIndex
    split_ifs <;> omega
  have hm : ∀ k, k < 4 → mirror (o + k) = o + (3 - k) := by
    intro k hk
    unfold mirror
    omega
  have e0 := hp o (by omega)
  have e1 := hp (o + 1) (by omega)
  have e2 := hp (o + 2) (by omega)
  have e3 := hp (o + 3) (by omega)
  simp only [nativeU32At, leU32At, List.getD_eq_getElem?_getD]
  cases bigEndian with
  | false =>
    simp only [Bool.false_eq_true, if_false] at e0 e1 e2 e3
    rw [e0, e1, e2, e3, hs 1 (by omega), hs 2 (by omega), hs 3 (by omega)]
    rfl
  | true =>
    simp only [if_true] at e0 e1 e2 e3
    have m0 := hm 0 (by omega)
    rw [Nat.add_zero] at m0
    rw [e0, e1, e2, e3, m0, hm 1 (by omega), hm 2 (by omega), hm 3 (by omega),
      hs (3 - 0) (by omega), hs (3 - 1) (by omega), hs (3 - 2) (by omega),
      hs (3 - 3) (by omega)]
    simp only [loadWord, leWord, if_true, Nat.sub_self, Nat.add_zero, Nat.sub_zero,
      Nat.reduceSub]

/-! ## Decoding: claims C2, C6, C7, C8, C9 -/

/-- C2: after a successful open of `b` with count `n`, `doMesh` returns a
mesh with `72 * n` bytes of vertex data in which, for triangle `t < n` and
vertex `v < 3`, the record at index `3 * t + v` has as its first three words
the position words of source bytes `[84 + 50 * t + 12 + 12 * v, + 12)` and as
its last three words the normal words of source bytes `[84 + 50 * t, + 12)`;
on a little-endian host the bytes themselves are those source bytes. -/
theorem C2_vertex_records (bigEndian : Bool) (uninit : Nat → Byte) (s0 : StlImporter)
    (b : List Byte) (hopen : (StlImporter.doOpenData bigEndian s0 b).2 = none) :
    ∃ mesh, (StlImporter.doMesh bigEndian uninit
        (StlImporter.doOpenData bigEndian s0 b).1).1 = some mesh ∧
      mesh.vertexData.length = 72 * leU32At b 80 ∧
      ∀ t v, t < leU32At b 80 → v < 3 →
        (∀ c, c < 3 → nativeU32At bigEndian mesh.vertexData (24 * (3 * t + v) + 4 * c) =
          leU32At b (84 + 50 * t + 12 + 12 * v + 4 * c)) ∧
        (∀ c, c < 3 → nativeU32At bigEndian mesh.vertexData (24 * (3 * t + v) + 12 + 4 * c) =
          leU32At b (84 + 50 * t + 4 * c)) ∧
        (bigEndian = false → ∀ k, k < 12 →
          mesh.vertexData[24 * (3 * t + v) + k]? = b[84 + 50 * t + 12 + 12 * v + k]? ∧
          mesh.vertexData[24 * (3 * t + v) + 12 + k]? = b[84 + 50 * t + k]?) := by
  obtain ⟨vd, hm, hl, hp⟩ := doMesh_opened bigEndian uninit s0 b hopen
  refine ⟨_, by rw [hm], hl, fun t v ht hv => ⟨fun c hc => ?_, fun c hc => ?_, fun hle k hk => ?_⟩⟩
  · show nativeU32At bigEndian vd _ = _
    rw [component_word bigEndian vd b (leU32At b 80) _ (by omega) (by omega) hp]
    congr 1; unfold sourceIndex; split_ifs <;> omega
  · show nativeU32At bigEndian vd _ = _
    rw [component_word bigEndian vd b (leU32At b 80) _ (by omega) (by omega) hp]
    congr 1; unfold sourceIndex; split_ifs <;> omega
  · subst hle
    simp only [Bool.false_eq_true, if_false] at hp
    refine ⟨?_, ?_⟩
    · show vd[_]? = _
      rw [hp _ (by omega)]
      congr 1; unfold sourceIndex; split_ifs <;> omega
    · show vd[_]? = _
      rw [hp _ (by omega)]
      congr 1; unfold sourceIndex; split_ifs <;> omega

set_option maxRecDepth 100000 in
/-- C2 at the one-triangle file on a little-endian host: the file is
accepted, the general statement holds there, and the decoded vertex data is
the three positions in their order, each followed by the normal (0, 0, 1). -/
theorem C2_vertex_records_witness :
    (StlImporter.doOpenData false { _in := none } oneTriangleFile).2 = none ∧
    (∃ mesh, (StlImporter.doMesh false (fun _ => 0)
        (StlImporter.doOpenData false { _in := none } oneTriangleFile).1).1 = some mesh ∧
      mesh.vertexData.length = 72 * leU32At oneTriangleFile 80 ∧
      ∀ t v, t < leU32At oneTriangleFile 80 → v < 3 →
        (∀ c, c < 3 → nativeU32At false mesh.vertexData (24 * (3 * t + v) + 4 * c) =
          leU32At oneTriangleFile (84 + 50 * t + 12 + 12 * v + 4 * c)) ∧
        (∀ c, c < 3 → nativeU32At false mesh.vertexData (24 * (3 * t + v) + 12 + 4 * c) =
          leU32At oneTriangleFile (84 + 50 * t + 4 * c)) ∧
        (false = false → ∀ k, k < 12 →
          mesh.vertexData[24 * (3 * t + v) + k]? =
            oneTriangleFile[84 + 50 * t + 12 + 12 * v + k]? ∧
          mesh.vertexData[24 * (3 * t + v) + 12 + k]? = oneTriangleFile[84 + 50 * t + k]?)) ∧
    (StlImporter.doMesh false (fun _ => 0)
        (StlImporter.doOpenData false { _in := none } oneTriangleFile).1).1 =
      some { primitive := MeshPrimitive.Triangles, vertexData := oneTriangleVertexData,
             attributes := [{ name := MeshAttribute.Position,
                              data := { data := 0, size := 3, stride := 24 } },
                            { name := MeshAttribute.Normal,
                              data := { data := 12, size := 3, stride := 24 } }] } :=
  ⟨by decide,
   C2_vertex_records false (fun _ => 0) { _in := none } oneTriangleFile (by decide),
   by decide⟩

/-- C6: after a successful open of `b` with count `n`, `doMesh` returns a
mesh of primitive `Triangles` whose attributes are exactly Position at
offset 0 and Normal at offset 12, in this order, each with stride 24 and
`3 * n` elements, and every element of both lies within the vertex data of
that mesh. -/
theorem C6_mesh_descriptors (bigEndian : Bool) (uninit : Nat → Byte) (s0 : StlImporter)
    (b : List Byte) (hopen : (StlImporter.doOpenData bigEndian s0 b).2 = none) :
    ∃ mesh, (StlImporter.doMesh bigEndian uninit
        (StlImporter.doOpenData bigEndian s0 b).1).1 = some mesh ∧
      mesh.primitive = MeshPrimitive.Triangles ∧
      mesh.attributes =
        [{ name := MeshAttribute.Position,
           data := { data := 0, size := 3 * leU32At b 80, stride := 24 } },
         { name := MeshAttribute.Normal,
           data := { data := 12, size := 3 * leU32At b 80, stride := 24 } }] ∧
      ∀ a, a ∈ mesh.attributes → ∀ i, i < a.data.size →
        a.data.data + i * a.data.stride + sizeofVector3 ≤ mesh.vertexData.length := by
  obtain ⟨vd, hm, hl, _⟩ := doMesh_opened bigEndian uninit s0 b hopen
  refine ⟨_, by rw [hm], rfl, rfl, fun a ha i hi => ?_⟩
  simp only [List.mem_cons, List.mem_singleton, List.not_mem_nil, or_false] at ha
  show _ ≤ vd.length
  rw [hl]
  rcases ha with rfl | rfl
  · simp only [sizeofVector3] at *; omega
  · simp only [sizeofVector3] at *; omega

set_option maxRecDepth 100000 in
/-- C6 at the 84-byte file with count 0: the file is accepted, the general
statement holds there, and the mesh has no vertex data and two attributes
of 0 elements. -/
theorem C6_mesh_descriptors_witness :
    (StlImporter.doOpenData false { _in := none } emptyMeshFile).2 = none ∧
    (∃ mesh, (StlImporter.doMesh false (fun _ => 0)
        (StlImporter.doOpenData false { _in := none } emptyMeshFile).1).1 = some mesh ∧
      mesh.primitive = MeshPrimitive.Triangles ∧
      mesh.attributes =
        [{ name := MeshAttribute.Position,
           data := { data := 0, size := 3 * leU32At emptyMeshFile 80, stride := 24 } },
         { name := MeshAttribute.Normal,
           data := { data := 12, size := 3 * leU32At emptyMeshFile 80, stride := 24 } }] ∧
      ∀ a, a ∈ mesh.attributes → ∀ i, i < a.data.size →
        a.data.data + i * a.data.stride + sizeofVector3 ≤ mesh.vertexData.length) ∧
    (StlImporter.doMesh false (fun _ => 0)
        (StlImporter.doOpenData false { _in := none } emptyMeshFile).1).1 =
      some { primitive := MeshPrimitive.Triangles, vertexData := [],
             attributes := [{ name := MeshAttribute.Position,
                              data := { data := 0, size := 0, stride := 24 } },
                            { name := MeshAttribute.Normal,
                              data := { data := 12, size := 0, stride := 24 } }] } :=
  ⟨by decide,
   C6_mesh_descriptors false (fun _ => 0) { _in := none } emptyMeshFile (by decide),
   by decide⟩

/-- C7: after a successful open of `b` with count `n`, the vertex data that
`doMesh` returns has `n * 3 * 24 = 72 * n` bytes, which is
`72 * (length b - 84) / 50`. -/
theorem C7_vertex_data_length (bigEndian : Bool) (uninit : Nat → Byte) (s0 : StlImporter)
    (b : List Byte) (hopen : (StlImporter.doOpenData bigEndian s0 b).2 = none) :
    ∃ mesh, (StlImporter.doMesh bigEndian uninit
        (StlImporter.doOpenData bigEndian s0 b).1).1 = some mesh ∧
      mesh.vertexData.length = leU32At b 80 * 3 * 24 ∧
      mesh.vertexData.length = 72 * leU32At b 80 ∧
      mesh.vertexData.length = 72 * (b.length - 84) / 50 ∧
      mesh.vertexData.length = 72 * ((b.length - 84) / 50) := by
  obtain ⟨vd, hm, hl, _⟩ := doMesh_opened bigEndian uninit s0 b hopen
  obtain ⟨_, hb, _⟩ := opened_shape bigEndian s0 b hopen
  refine ⟨_, by rw [hm], ?_, hl, ?_, ?_⟩
  · show vd.length = _
    omega
  · show vd.length = _
    omega
  · show vd.length = _
    omega

set_option maxRecDepth 100000 in
/-- C7 at the one-triangle file: 134 bytes in, 72 bytes out. -/
theorem C7_vertex_data_length_witness :
    (StlImporter.doOpenData true { _in := none } oneTriangleFile).2 = none ∧
    ∃ mesh, (StlImporter.doMesh true (fun _ => 255)
        (StlImporter.doOpenData true { _in := none } oneTriangleFile).1).1 = some mesh ∧
      mesh.vertexData.length = leU32At oneTriangleFile 80 * 3 * 24 ∧
      mesh.vertexData.length = 72 * leU32At oneTriangleFile 80 ∧
      mesh.vertexData.length = 72 * (oneTriangleFile.length - 84) / 50 ∧
      mesh.vertexData.length = 72 * ((oneTriangleFile.length - 84) / 50) :=
  ⟨by decide,
   C7_vertex_data_length true (fun _ => 255) { _in := none } oneTriangleFile (by decide)⟩

/-- C8: after a successful open of `b` with count `n`, on either host each of
the six 32-bit components of each of the `3 * n` vertices of the vertex data
that `doMesh` returns, loaded by that host, is the little-endian reading of
its four source bytes; so the two hosts load the same words, the big-endian
vertex data is the little-endian one with the bytes of every component of
positions and normals reversed, and on a little-endian host
`littleEndianInPlace` leaves the buffer as it is. -/
theorem C8_components_on_both_hosts (host : Bool) (s0 : StlImporter) (b : List Byte)
    (hopen : (StlImporter.doOpenData host s0 b).2 = none) :
    (∀ (bigEndian : Bool) (uninit : Nat → Byte),
      (StlImporter.doOpenData bigEndian s0 b).2 = none ∧
      ∃ mesh, (StlImporter.doMesh bigEndian uninit
          (StlImporter.doOpenData bigEndian s0 b).1).1 = some mesh ∧
        mesh.vertexData.length = 72 * leU32At b 80 ∧
        ∀ q c, q < 3 * leU32At b 80 → c < 6 →
          nativeU32At bigEndian mesh.vertexData (24 * q + 4 * c) =
            leU32At b (if c < 3 then 84 + 50 * (q / 3) + 12 + 12 * (q % 3) + 4 * c
                       else 84 + 50 * (q / 3) + 4 * (c - 3))) ∧
    (∀ (uninitL uninitB : Nat → Byte) (meshL meshB : MeshData),
      (StlImporter.doMesh false uninitL (StlImporter.doOpenData false s0 b).1).1 = some meshL →
      (StlImporter.doMesh true uninitB (StlImporter.doOpenData true s0 b).1).1 = some meshB →
      (∀ q c, q < 3 * leU32At b 80 → c < 6 →
        nativeU32At false meshL.vertexData (24 * q + 4 * c) =
          nativeU32At true meshB.vertexData (24 * q + 4 * c)) ∧
      (∀ p, p < 72 * leU32At b 80 → meshB.vertexData[p]? = meshL.vertexData[mirror p]?)) ∧
    (∀ (mem : List Byte) (values : StridedArrayView1D),
      Endianness.littleEndianInPlace false mem values = some mem) := by
  have hword : ∀ (bigEndian : Bool) (vd : List Byte),
      (∀ p, p < 72 * leU32At b 80 →
        vd[p]? = b[sourceIndex (if bigEndian then mirror p else p)]?) →
      ∀ q c, q < 3 * leU32At b 80 → c < 6 →
        nativeU32At bigEndian vd (24 * q + 4 * c) =
          leU32At b (if c < 3 then 84 + 50 * (q / 3) + 12 + 12 * (q % 3) + 4 * c
                     else 84 + 50 * (q / 3) + 4 * (c - 3)) := by
    intro bigEndian vd hp q c hq hc
    rw [component_word bigEndian vd b (leU32At b 80) _ (by omega) (by omega) hp]
    congr 1; unfold sourceIndex; split_ifs <;> omega
  refine ⟨fun bigEndian uninit => ?_, fun uninitL uninitB meshL meshB hL hB => ?_,
    fun mem values => rfl⟩
  · have ho := doOpenData_host_independent host bigEndian s0 b hopen
    obtain ⟨vd, hm, hl, hp⟩ := doMesh_opened bigEndian uninit s0 b ho
    exact ⟨ho, _, by rw [hm], hl, hword bigEndian vd hp⟩
  · obtain ⟨vdL, hmL, hlL, hpL⟩ := doMesh_opened false uninitL s0 b
      (doOpenData_host_independent host false s0 b hopen)
    obtain ⟨vdB, hmB, hlB, hpB⟩ := doMesh_opened true uninitB s0 b
      (doOpenData_host_independent host true s0 b hopen)
    rw [hmL] at hL
    rw [hmB] at hB
    simp only [Option.some.injEq] at hL hB
    subst hL
    subst hB
    refine ⟨fun q c hq hc => ?_, fun p hp => ?_⟩
    · show nativeU32At false vdL _ = nativeU32At true vdB _
      rw [hword false vdL hpL q c hq hc, hword true vdB hpB q c hq hc]
    · show vdB[p]? = vdL[mirror p]?
      have hmp : mirror p < 72 * leU32At b 80 := by unfold mirror; omega
      have e1 := hpB p hp
      have e2 := hpL (mirror p) hmp
      simp only [if_true] at e1
      simp only [Bool.false_eq_true, if_false] at e2
      rw [e1, e2]

set_option maxRecDepth 100000 in
/-- C8 at the one-triangle file, accepted on a little-endian host. -/
theorem C8_components_on_both_hosts_witness :
    (StlImporter.doOpenData false { _in := none } oneTriangleFile).2 = none ∧
    ((∀ (bigEndian : Bool) (uninit : Nat → Byte),
      (StlImporter.doOpenData bigEndian { _in := none } oneTriangleFile).2 = none ∧
      ∃ mesh, (StlImporter.doMesh bigEndian uninit
          (StlImporter.doOpenData bigEndian { _in := none } oneTriangleFile).1).1 = some mesh ∧
        mesh.vertexData.length = 72 * leU32At oneTriangleFile 80 ∧
        ∀ q c, q < 3 * leU32At oneTriangleFile 80 → c < 6 →
          nativeU32At bigEndian mesh.vertexData (24 * q + 4 * c) =
            leU32At oneTriangleFile
              (if c < 3 then 84 + 50 * (q / 3) + 12 + 12 * (q % 3) + 4 * c
               else 84 + 50 * (q / 3) + 4 * (c - 3))) ∧
    (∀ (uninitL uninitB : Nat → Byte) (meshL meshB : MeshData),
      (StlImporter.doMesh false uninitL
        (StlImporter.doOpenData false { _in := none } oneTriangleFile).1).1 = some meshL →
      (StlImporter.doMesh true uninitB
        (StlImporter.doOpenData true { _in := none } oneTriangleFile).1).1 = some meshB →
      (∀ q c, q < 3 * leU32At oneTriangleFile 80 → c < 6 →
        nativeU32At false meshL.vertexData (24 * q + 4 * c) =
          nativeU32At true meshB.vertexData (24 * q + 4 * c)) ∧
      (∀ p, p < 72 * leU32At oneTriangleFile 80 →
        meshB.vertexData[p]? = meshL.vertexData[mirror p]?)) ∧
    (∀ (mem : List Byte) (values : StridedArrayView1D),
      Endianness.littleEndianInPlace false mem values = some mem)) :=
  ⟨by decide,
   C8_components_on_both_hosts false { _in := none } oneTriangleFile (by decide)⟩

/-- C9: `doMesh` returns the instance it was given, whatever that instance
is; and on the instance left by a successful open, two calls in succession
return the same mesh (same vertex data, same attributes), whatever the
uninitialised memory of either call holds. -/
theorem C9_decode_is_repeatable (bigEndian : Bool) (uninit1 uninit2 : Nat → Byte)
    (s0 : StlImporter) (b : List Byte)
    (hopen : (StlImporter.doOpenData bigEndian s0 b).2 = none) :
    (∀ (s : StlImporter) (uninit : Nat → Byte),
      (StlImporter.doMesh bigEndian uninit s).2 = s) ∧
    (StlImporter.doMesh bigEndian uninit1 (StlImporter.doOpenData bigEndian s0 b).1).2._in =
      some b ∧
    ∃ mesh,
      (StlImporter.doMesh bigEndian uninit1 (StlImporter.doOpenData bigEndian s0 b).1).1 =
        some mesh ∧
      (StlImporter.doMesh bigEndian uninit2
        (StlImporter.doMesh bigEndian uninit1
          (StlImporter.doOpenData bigEndian s0 b).1).2).1 = some mesh := by
  obtain ⟨vd1, hm1, hl1, hp1⟩ := doMesh_opened bigEndian uninit1 s0 b hopen
  obtain ⟨vd2, hm2, hl2, hp2⟩ := doMesh_opened bigEndian uninit2 s0 b hopen
  have hs := (opened_shape bigEndian s0 b hopen).1
  have hvd : vd2 = vd1 := by
    apply List.ext_getElem?
    intro p
    by_cases hlt : p < 72 * leU32At b 80
    · rw [hp1 p hlt, hp2 p hlt]
    · rw [List.getElem?_eq_none (by omega), List.getElem?_eq_none (by omega)]
  refine ⟨fun s uninit => rfl, by rw [hm1], _, by rw [hm1], ?_⟩
  rw [hm1]
  show (StlImporter.doMesh bigEndian uninit2 { _in := some b }).1 = _
  rw [← hs, hm2, hvd]

set_option maxRecDepth 100000 in
/-- C9 at the one-triangle file on a big-endian host, the two calls finding
different bytes in their uninitialised memory. -/
theorem C9_decode_is_repeatable_witness :
    (StlImporter.doOpenData true { _in := none } oneTriangleFile).2 = none ∧
    ((∀ (s : StlImporter) (uninit : Nat → Byte),
      (StlImporter.doMesh true uninit s).2 = s) ∧
    (StlImporter.doMesh true (fun _ => 0)
      (StlImporter.doOpenData true { _in := none } oneTriangleFile).1).2._in =
      some oneTriangleFile ∧
    ∃ mesh,
      (StlImporter.doMesh true (fun _ => 0)
        (StlImporter.doOpenData true { _in := none } oneTriangleFile).1).1 = some mesh ∧
      (StlImporter.doMesh true (fun _ => 255)
        (StlImporter.doMesh true (fun _ => 0)
          (StlImporter.doOpenData true { _in := none } oneTriangleFile).1).2).1 = some mesh) :=
  ⟨by decide,
   C9_decode_is_repeatable true (fun _ => 0) (fun _ => 255) { _in := none } oneTriangleFile
     (by decide)⟩

/-! ## The instance across open and close: claims C11, C12, C13, C14 -/

/-- A diagnostic of `doOpenFile` means the instance is the one before the
call. -/
theorem doOpenFile_error_state (bigEndian : Bool) (directory : Directory) (s : StlImporter)
    (filename : String)
    (h : (StlImporter.doOpenFile bigEndian directory s filename).2 ≠ none) :
    (StlImporter.doOpenFile bigEndian directory s filename).1 = s := by
  unfold StlImporter.doOpenFile at *
  by_cases he : directory.fileExists filename = true
  · simp only [he, Bool.not_true, Bool.false_eq_true, if_false] at h ⊢
    rw [← doOpenData_eq] at h ⊢
    exact doOpenData_error_state bigEndian s _ h
  · simp [he]

/-- On an instance that holds no buffer `doMesh` returns no mesh. -/
theorem doMesh_closed (bigEndian : Bool) (uninit : Nat → Byte) (s : StlImporter)
    (h : s._in = none) : (StlImporter.doMesh bigEndian uninit s).1 = none := by
  simp [StlImporter.doMesh, h]

set_option maxRecDepth 100000 in
/-- C11 fails on an instance that is open: it holds the 84-byte file, is
given the empty buffer, which is refused as too short, and afterwards it is
still open, still holds the file, and still decodes a mesh. -/
theorem C11_failed_open_counterexample :
    (StlImporter.doOpenData false { _in := some emptyMeshFile } []).2 =
      some (OpenError.fileTooShort 0) ∧
    (StlImporter.doOpenData false { _in := some emptyMeshFile } []).1.doIsOpened = true ∧
    (StlImporter.doOpenData false { _in := some emptyMeshFile } []).1._in =
      some emptyMeshFile ∧
    (StlImporter.doMesh false (fun _ => 0)
      (StlImporter.doOpenData false { _in := some emptyMeshFile } []).1).1 ≠ none := by
  decide

/-- C11 as amended: a failed `doOpenData` or `doOpenFile` leaves the instance
as it was before the call, whatever it was. So an instance that held no
buffer before the call is closed after it: `doIsOpened` is false, no buffer
is held and `doMesh` returns no mesh; and an instance that held a buffer
before the call is open after it and holds that same buffer. -/
theorem C11_failed_open_leaves_state (bigEndian : Bool) (directory : Directory)
    (s : StlImporter) (b : List Byte) (filename : String) :
    ((StlImporter.doOpenData bigEndian s b).2 ≠ none →
      (StlImporter.doOpenData bigEndian s b).1 = s ∧
      (s._in = none →
        (StlImporter.doOpenData bigEndian s b).1.doIsOpened = false ∧
        (StlImporter.doOpenData bigEndian s b).1._in = none ∧
        ∀ uninit, (StlImporter.doMesh bigEndian uninit
          (StlImporter.doOpenData bigEndian s b).1).1 = none) ∧
      (∀ held, s._in = some held →
        (StlImporter.doOpenData bigEndian s b).1.doIsOpened = true ∧
        (StlImporter.doOpenData bigEndian s b).1._in = some held)) ∧
    ((StlImporter.doOpenFile bigEndian directory s filename).2 ≠ none →
      (StlImporter.doOpenFile bigEndian directory s filename).1 = s ∧
      (s._in = none →
        (StlImporter.doOpenFile bigEndian directory s filename).1.doIsOpened = false ∧
        (StlImporter.doOpenFile bigEndian directory s filename).1._in = none ∧
        ∀ uninit, (StlImporter.doMesh bigEndian uninit
          (StlImporter.doOpenFile bigEndian directory s filename).1).1 = none) ∧
      (∀ held, s._in = some held →
        (StlImporter.doOpenFile bigEndian directory s filename).1.doIsOpened = true ∧
        (StlImporter.doOpenFile bigEndian directory s filename).1._in = some held)) := by
  refine ⟨fun h => ?_, fun h => ?_⟩
  · rw [doOpenData_error_state bigEndian s b h]
    exact ⟨rfl,
      fun hclosed => ⟨by simp [StlImporter.doIsOpened, hclosed], hclosed,
        fun uninit => doMesh_closed bigEndian uninit s hclosed⟩,
      fun held hheld => ⟨by simp [StlImporter.doIsOpened, hheld], hheld⟩⟩
  · rw [doOpenFile_error_state bigEndian directory s filename h]
    exact ⟨rfl,
      fun hclosed => ⟨by simp [StlImporter.doIsOpened, hclosed], hclosed,
        fun uninit => doMesh_closed bigEndian uninit s hclosed⟩,
      fun held hheld => ⟨by simp [StlImporter.doIsOpened, hheld], hheld⟩⟩

set_option maxRecDepth 100000 in
/-- C11 as amended, at four failed opens: a closed instance given 83 zero
bytes, a closed instance given the name of a file that does not exist, and
an instance that holds the one-triangle file given each of the two. -/
theorem C11_failed_open_leaves_state_witness :
    ((StlImporter.doOpenData false { _in := none } (List.replicate 83 0)).2 ≠ none ∧
      (StlImporter.doOpenData false { _in := none } (List.replicate 83 0)).1.doIsOpened =
        false ∧
      (StlImporter.doOpenData false { _in := none } (List.replicate 83 0)).1._in = none ∧
      ∀ uninit, (StlImporter.doMesh false uninit
        (StlImporter.doOpenData false { _in := none } (List.replicate 83 0)).1).1 = none) ∧
    ((StlImporter.doOpenFile false { fileExists := fun _ => false, read := fun _ => [] }
        { _in := none } "missing.stl").2 ≠ none ∧
      (StlImporter.doOpenFile false { fileExists := fun _ => false, read := fun _ => [] }
        { _in := none } "missing.stl").1.doIsOpened = false ∧
      (StlImporter.doOpenFile false { fileExists := fun _ => false, read := fun _ => [] }
        { _in := none } "missing.stl").1._in = none ∧
      ∀ uninit, (StlImporter.doMesh false uninit
        (StlImporter.doOpenFile false { fileExists := fun _ => false, read := fun _ => [] }
          { _in := none } "missing.stl").1).1 = none) ∧
    ((StlImporter.doOpenData false { _in := some oneTriangleFile } (List.replicate 83 0)).2
        ≠ none ∧
      (StlImporter.doOpenData false { _in := some oneTriangleFile }
        (List.replicate 83 0)).1.doIsOpened = true ∧
      (StlImporter.doOpenData false { _in := some oneTriangleFile }
        (List.replicate 83 0)).1._in = some oneTriangleFile) ∧
    ((StlImporter.doOpenFile false { fileExists := fun _ => false, read := fun _ => [] }
        { _in := some oneTriangleFile } "missing.stl").2 ≠ none ∧
      (StlImporter.doOpenFile false { fileExists := fun _ => false, read := fun _ => [] }
        { _in := some oneTriangleFile } "missing.stl").1.doIsOpened = true ∧
      (StlImporter.doOpenFile false { fileExists := fun _ => false, read := fun _ => [] }
        { _in := some oneTriangleFile } "missing.stl").1._in = some oneTriangleFile) :=
  ⟨⟨by decide,
    ((C11_failed_open_leaves_state false
      { fileExists := fun _ => false, read := fun _ => [] } { _in := none }
      (List.replicate 83 0) "missing.stl").1 (by decide)).2.1 rfl⟩,
   ⟨by simp [StlImporter.doOpenFile],
    ((C11_failed_open_leaves_state false
      { fileExists := fun _ => false, read := fun _ => [] } { _in := none }
      (List.replicate 83 0) "missing.stl").2 (by simp [StlImporter.doOpenFile])).2.1 rfl⟩,
   ⟨by decide,
    ((C11_failed_open_leaves_state false
      { fileExists := fun _ => false, read := fun _ => [] } { _in := some oneTriangleFile }
      (List.replicate 83 0) "missing.stl").1 (by decide)).2.2 oneTriangleFile rfl⟩,
   ⟨by simp [StlImporter.doOpenFile],
    ((C11_failed_open_leaves_state false
      { fileExists := fun _ => false, read := fun _ => [] } { _in := some oneTriangleFile }
      (List.replicate 83 0) "missing.stl").2 (by simp [StlImporter.doOpenFile])).2.2
      oneTriangleFile rfl⟩⟩

/-- C12 fails on an instance that is not open: `doMeshCount` is 1 there, not
0; so it is not 1 when open and 0 otherwise. -/
theorem C12_mesh_count_counterexample :
    StlImporter.doIsOpened { _in := none } = false ∧
    StlImporter.doMeshCount { _in := none } = 1 ∧
    ¬ (∀ s : StlImporter, s.doMeshCount = if s.doIsOpened then 1 else 0) := by
  refine ⟨rfl, rfl, fun h => ?_⟩
  have h0 := h { _in := none }
  simp [StlImporter.doMeshCount, StlImporter.doIsOpened] at h0

/-- C12 as amended: `doMeshCount` is 1 on every instance, open or not; in
particular it is 1 on an open one. -/
theorem C12_mesh_count_is_one (s : StlImporter) :
    s.doMeshCount = 1 ∧ (s.doIsOpened = true → s.doMeshCount = 1) ∧
    (s.doIsOpened = false → s.doMeshCount = 1) :=
  ⟨rfl, fun _ => rfl, fun _ => rfl⟩

/-- C13: after `doOpenData` of a buffer that passes the checks the instance
is open and holds exactly that buffer, whatever it held before; after
`doClose` it is not open and holds nothing; and `doIsOpened` is true exactly
when a buffer is held. -/
theorem C13_open_close_state (bigEndian : Bool) (s : StlImporter) (b : List Byte) :
    ((StlImporter.doOpenData bigEndian s b).2 = none →
      (StlImporter.doOpenData bigEndian s b).1.doIsOpened = true ∧
      (StlImporter.doOpenData bigEndian s b).1._in = some b) ∧
    (s.doClose.doIsOpened = false ∧ s.doClose._in = none) ∧
    (s.doIsOpened = true ↔ ∃ held, s._in = some held) := by
  refine ⟨fun h => ?_, ⟨rfl, rfl⟩, ?_⟩
  · rw [(opened_shape bigEndian s b h).1]
    exact ⟨rfl, rfl⟩
  · cases s with
    | mk held =>
      cases held with
      | none => simp [StlImporter.doIsOpened]
      | some x => simp [StlImporter.doIsOpened]

set_option maxRecDepth 100000 in
/-- C13 at an instance that holds the 84-byte file and is given the
one-triangle file: it then holds the one-triangle file, and nothing after
`doClose`. -/
theorem C13_open_close_state_witness :
    (StlImporter.doOpenData false { _in := some emptyMeshFile } oneTriangleFile).2 = none ∧
    ((StlImporter.doOpenData false { _in := some emptyMeshFile } oneTriangleFile).1.doIsOpened
        = true ∧
      (StlImporter.doOpenData false { _in := some emptyMeshFile } oneTriangleFile).1._in =
        some oneTriangleFile) ∧
    (StlImporter.doClose { _in := some emptyMeshFile }).doIsOpened = false ∧
    (StlImporter.doClose { _in := some emptyMeshFile })._in = none :=
  ⟨by decide,
   (C13_open_close_state false { _in := some emptyMeshFile } oneTriangleFile).1 (by decide),
   (C13_open_close_state false { _in := some emptyMeshFile } oneTriangleFile).2.1⟩

/-- C14 fails for a file that exists and cannot be read, `read()` returning
no bytes: the diagnostic is the too-short one of the checks, with 0 bytes,
and not the one for a file that cannot be opened. -/
theorem C14_unreadable_counterexample :
    StlImporter.doOpenFile false { fileExists := fun _ => true, read := fun _ => [] }
        { _in := none } "unreadable.stl" =
      ({ _in := none }, some (OpenError.fileTooShort 0)) ∧
    (StlImporter.doOpenFile false { fileExists := fun _ => true, read := fun _ => [] }
        { _in := none } "unreadable.stl").2 ≠
      some (OpenError.cannotOpenFile "unreadable.stl") := by
  decide

/-- C14 as amended: for a file that does not exist `doOpenFile` writes the
"cannot open file" diagnostic with the file name and leaves the instance as
it was; for a file that exists and of which `read()` returns no bytes it
leaves the instance as it was too, and the diagnostic is the too-short one
with 0 bytes. -/
theorem C14_open_file_failures (bigEndian : Bool) (directory : Directory) (s : StlImporter)
    (filename : String) :
    (directory.fileExists filename = false →
      StlImporter.doOpenFile bigEndian directory s filename =
        (s, some (OpenError.cannotOpenFile filename))) ∧
    (directory.fileExists filename = true → directory.read filename = [] →
      StlImporter.doOpenFile bigEndian directory s filename =
        (s, some (OpenError.fileTooShort 0))) := by
  refine ⟨fun h => ?_, fun h hr => ?_⟩
  · simp [StlImporter.doOpenFile, h]
  · simp only [StlImporter.doOpenFile, h, Bool.not_true, Bool.false_eq_true, if_false, hr]
    rw [openDataInternal_eq]
    simp

/-- C14 as amended, at an open instance: once with a file that does not
exist, once with one that cannot be read. -/
theorem C14_open_file_failures_witness :
    StlImporter.doOpenFile true { fileExists := fun _ => false, read := fun _ => [] }
        { _in := some emptyMeshFile } "missing.stl" =
      ({ _in := some emptyMeshFile }, some (OpenError.cannotOpenFile "missing.stl")) ∧
    StlImporter.doOpenFile true { fileExists := fun _ => true, read := fun _ => [] }
        { _in := some emptyMeshFile } "unreadable.stl" =
      ({ _in := some emptyMeshFile }, some (OpenError.fileTooShort 0)) :=
  ⟨(C14_open_file_failures true { fileExists := fun _ => false, read := fun _ => [] }
      { _in := some emptyMeshFile } "missing.stl").1 rfl,
   (C14_open_file_failures true { fileExists := fun _ => true, read := fun _ => [] }
      { _in := some emptyMeshFile } "unreadable.stl").2 rfl rfl⟩

/-! ## Bounds, independence and sizes: claims C15, C16, C17, C18 -/

/-- C15: on the instance left by a successful open of `b` with count `n`,
the header can be dropped since `b` has at least 84 bytes, every source
index `84 + 50 * t + k` with `t < n`, `k < 48` is below the length of `b`,
every destination index `72 * t + 24 * v + k` with `t < n`, `v < 3`, `k < 24`
is below `72 * n`, each read of a normal and of a position made by the two
copies succeeds, and `doMesh` returns a mesh, of `72 * n` bytes. -/
theorem C15_decode_in_bounds (bigEndian : Bool) (uninit : Nat → Byte) (s0 : StlImporter)
    (b : List Byte) (hopen : (StlImporter.doOpenData bigEndian s0 b).2 = none) :
    84 ≤ b.length ∧
    (∀ t k, t < leU32At b 80 → k < 48 → 84 + 50 * t + k < b.length) ∧
    (∀ t v k, t < leU32At b 80 → v < 3 → k < 24 →
      72 * t + 24 * v + k < 72 * leU32At b 80) ∧
    (∀ t v, t < leU32At b 80 → v < 3 →
      (readBytes (b.drop 84) (0 + t * InputTriangleStride + v * 0) sizeofVector3).isSome ∧
      (readBytes (b.drop 84) (sizeofVector3 + t * InputTriangleStride + v * sizeofVector3)
        sizeofVector3).isSome) ∧
    ∃ mesh, (StlImporter.doMesh bigEndian uninit
        (StlImporter.doOpenData bigEndian s0 b).1).1 = some mesh ∧
      mesh.vertexData.length = 72 * leU32At b 80 := by
  obtain ⟨vd, hm, hl, _⟩ := doMesh_opened bigEndian uninit s0 b hopen
  obtain ⟨_, hb, _⟩ := opened_shape bigEndian s0 b hopen
  refine ⟨by omega, fun t k ht hk => by omega, fun t v k ht hv hk => by omega,
    fun t v ht hv => ?_, _, by rw [hm], hl⟩
  have hd : (b.drop 84).length = 50 * leU32At b 80 := by rw [List.length_drop]; omega
  simp only [readBytes, InputTriangleStride, sizeofVector3, hd]
  constructor
  · rw [if_pos (by omega)]; rfl
  · rw [if_pos (by omega)]; rfl

set_option maxRecDepth 100000 in
/-- C15 at the one-triangle file. -/
theorem C15_decode_in_bounds_witness :
    (StlImporter.doOpenData false { _in := none } oneTriangleFile).2 = none ∧
    (84 ≤ oneTriangleFile.length ∧
    (∀ t k, t < leU32At oneTriangleFile 80 → k < 48 →
      84 + 50 * t + k < oneTriangleFile.length) ∧
    (∀ t v k, t < leU32At oneTriangleFile 80 → v < 3 → k < 24 →
      72 * t + 24 * v + k < 72 * leU32At oneTriangleFile 80) ∧
    (∀ t v, t < leU32At oneTriangleFile 80 → v < 3 →
      (readBytes (oneTriangleFile.drop 84) (0 + t * InputTriangleStride + v * 0)
        sizeofVector3).isSome ∧
      (readBytes (oneTriangleFile.drop 84)
        (sizeofVector3 + t * InputTriangleStride + v * sizeofVector3)
        sizeofVector3).isSome) ∧
    ∃ mesh, (StlImporter.doMesh false (fun _ => 0)
        (StlImporter.doOpenData false { _in := none } oneTriangleFile).1).1 = some mesh ∧
      mesh.vertexData.length = 72 * leU32At oneTriangleFile 80) :=
  ⟨by decide,
   C15_decode_in_bounds false (fun _ => 0) { _in := none } oneTriangleFile (by decide)⟩

/-- The byte that a host puts at index `p` of the vertex data is never a
header text byte nor one of the two attribute bytes of a record. -/
theorem sourceIndex_is_payload (q : Nat) :
    84 ≤ sourceIndex q ∧ (sourceIndex q - 84) % 50 < 48 := by
  unfold sourceIndex
  have h3 : q % 72 / 24 < 3 := by omega
  split_ifs with h
  · have e : 84 + 50 * (q / 72) + 12 + 12 * (q % 72 / 24) + q % 24 - 84 =
        50 * (q / 72) + (12 + 12 * (q % 72 / 24) + q % 24) := by omega
    rw [e, Nat.mul_add_mod]
    clear e
    have hr : 12 + 12 * (q % 72 / 24) + q % 24 < 48 := by omega
    rw [Nat.mod_eq_of_lt (Nat.lt_trans hr (by decide))]
    exact ⟨by omega, hr⟩
  · have e : 84 + 50 * (q / 72) + (q % 24 - 12) - 84 = 50 * (q / 72) + (q % 24 - 12) := by
      omega
    rw [e, Nat.mul_add_mod]
    clear e
    have hr : q % 24 - 12 < 48 := by omega
    rw [Nat.mod_eq_of_lt (Nat.lt_trans hr (by decide))]
    exact ⟨by omega, hr⟩

/-- C16: two accepted buffers that agree on the count bytes [80, 84) and on
the first 48 bytes of every record, so differ at most in the header text
[0, 80) and in the two attribute bytes of each record, decode to the same
mesh: same vertex data, same attributes. -/
theorem C16_header_and_padding_ignored (bigEndian : Bool) (uninit1 uninit2 : Nat → Byte)
    (s1 s2 : StlImporter) (b1 b2 : List Byte)
    (hopen1 : (StlImporter.doOpenData bigEndian s1 b1).2 = none)
    (hopen2 : (StlImporter.doOpenData bigEndian s2 b2).2 = none)
    (hagree : ∀ i, i < b1.length →
      ((80 ≤ i ∧ i < 84) ∨ (84 ≤ i ∧ (i - 84) % 50 < 48)) → b1[i]? = b2[i]?) :
    (StlImporter.doMesh bigEndian uninit1 (StlImporter.doOpenData bigEndian s1 b1).1).1 =
      (StlImporter.doMesh bigEndian uninit2 (StlImporter.doOpenData bigEndian s2 b2).1).1 ∧
    ∃ mesh, (StlImporter.doMesh bigEndian uninit1
      (StlImporter.doOpenData bigEndian s1 b1).1).1 = some mesh := by
  obtain ⟨vd1, hm1, hl1, hp1⟩ := doMesh_opened bigEndian uninit1 s1 b1 hopen1
  obtain ⟨vd2, hm2, hl2, hp2⟩ := doMesh_opened bigEndian uninit2 s2 b2 hopen2
  obtain ⟨_, hb1, _⟩ := opened_shape bigEndian s1 b1 hopen1
  obtain ⟨_, hb2, _⟩ := opened_shape bigEndian s2 b2 hopen2
  have hcount : leU32At b1 80 = leU32At b2 80 := by
    simp only [leU32At, List.getD_eq_getElem?_getD]
    rw [hagree 80 (by omega) (Or.inl (by omega)), hagree 81 (by omega) (Or.inl (by omega)),
      hagree 82 (by omega) (Or.inl (by omega)), hagree 83 (by omega) (Or.inl (by omega))]
  have hvd : vd1 = vd2 := by
    apply List.ext_getElem?
    intro p
    by_cases hlt : p < 72 * leU32At b1 80
    · rw [hp1 p hlt, hp2 p (by omega)]
      have hpay := sourceIndex_is_payload (if bigEndian then mirror p else p)
      by_cases hin : sourceIndex (if bigEndian then mirror p else p) < b1.length
      · exact hagree _ hin (Or.inr hpay)
      · rw [List.getElem?_eq_none (by omega), List.getElem?_eq_none (by omega)]
    · rw [List.getElem?_eq_none (by omega), List.getElem?_eq_none (by omega)]
  refine ⟨?_, _, by rw [hm1]⟩
  rw [hm1, hm2, hvd, hcount]

set_option maxRecDepth 100000 in
/-- C16 at the one-triangle file and its variant, which has another header
text and other attribute bytes, with different uninitialised memory. -/
theorem C16_header_and_padding_ignored_witness :
    oneTriangleFile ≠ oneTriangleFileVariant ∧
    (StlImporter.doOpenData true { _in := none } oneTriangleFile).2 = none ∧
    (StlImporter.doOpenData true { _in := none } oneTriangleFileVariant).2 = none ∧
    ((StlImporter.doMesh true (fun _ => 0)
        (StlImporter.doOpenData true { _in := none } oneTriangleFile).1).1 =
      (StlImporter.doMesh true (fun _ => 255)
        (StlImporter.doOpenData true { _in := none } oneTriangleFileVariant).1).1 ∧
    ∃ mesh, (StlImporter.doMesh true (fun _ => 0)
      (StlImporter.doOpenData true { _in := none } oneTriangleFile).1).1 = some mesh) :=
  ⟨by decide, by decide, by decide,
   C16_header_and_padding_ignored true (fun _ => 0) (fun _ => 255) { _in := none }
     { _in := none } oneTriangleFile oneTriangleFileVariant (by decide) (by decide)
     (by decide)⟩

/-- C17: with `size_t` and `ptrdiff_t` of 64 bits and a count `n` below
`2 ^ 32`, the expected size as `openDataInternal` computes it, the product
`InputTriangleStride * n` and then `84 +` it, each reduced modulo `2 ^ 64`,
is `84 + 50 * n`, which is below `2 ^ 38`; so a buffer whose count is `n` is
accepted only if its length is `84 + 50 * n`. -/
theorem C17_expected_size_exact (n : Nat) (hn : n < 2 ^ 32) :
    sizeBits = 64 ∧ InputTriangleStride = 50 ∧
    (InputTriangleStride * n) % 2 ^ sizeBits = 50 * n ∧
    (84 + (InputTriangleStride * n) % 2 ^ sizeBits) % 2 ^ sizeBits = 84 + 50 * n ∧
    84 + 50 * n < 2 ^ 38 ∧
    ∀ (bigEndian : Bool) (s : StlImporter) (b : List Byte), leU32At b 80 = n →
      StlImporter.openDataInternal bigEndian s b = ({ _in := some b }, none) →
      b.length = 84 + 50 * n := by
  have h1 : (InputTriangleStride * n) % 2 ^ sizeBits = 50 * n := by
    simp only [InputTriangleStride, sizeBits]
    exact Nat.mod_eq_of_lt (by omega)
  refine ⟨rfl, rfl, h1, ?_, by omega, fun bigEndian s b hc hok => ?_⟩
  · rw [h1]
    simp only [sizeBits]
    exact Nat.mod_eq_of_lt (by omega)
  · rw [← doOpenData_eq] at hok
    rw [← hc]
    exact ((doOpenData_success_iff bigEndian s b).1 hok).2.2

/-- C17 at the largest count, `2 ^ 32 - 1`: the expected size is
214748364734. -/
theorem C17_expected_size_exact_witness :
    (84 + (InputTriangleStride * 4294967295) % 2 ^ sizeBits) % 2 ^ sizeBits =
      84 + 50 * 4294967295 ∧
    84 + 50 * 4294967295 < 2 ^ 38 :=
  ⟨(C17_expected_size_exact 4294967295 (by decide)).2.2.2.1,
   (C17_expected_size_exact 4294967295 (by decide)).2.2.2.2.1⟩

/-- C18: for an accepted buffer `b` with count `n` in its header, the count
that `doMesh` recomputes, the length of `b` without its 84 header bytes
divided by `InputTriangleStride`, is `n`, the division leaves no remainder,
so the records end where the buffer ends, and the mesh has `3 * n` elements
per attribute and `72 * n` bytes. -/
theorem C18_recomputed_count (bigEndian : Bool) (uninit : Nat → Byte) (s0 : StlImporter)
    (b : List Byte) (hopen : (StlImporter.doOpenData bigEndian s0 b).2 = none) :
    (b.drop 84).length / InputTriangleStride = leU32At b 80 ∧
    (b.length - 84) / 50 = leU32At b 80 ∧
    (b.length - 84) % 50 = 0 ∧
    84 + 50 * ((b.length - 84) / 50) = b.length ∧
    ∃ mesh, (StlImporter.doMesh bigEndian uninit
        (StlImporter.doOpenData bigEndian s0 b).1).1 = some mesh ∧
      mesh.attributes.map (fun a => a.data.size) =
        [3 * ((b.length - 84) / 50), 3 * ((b.length - 84) / 50)] ∧
      mesh.vertexData.length = 72 * ((b.length - 84) / 50) := by
  obtain ⟨vd, hm, hl, _⟩ := doMesh_opened bigEndian uninit s0 b hopen
  obtain ⟨_, hb, _⟩ := opened_shape bigEndian s0 b hopen
  have hq : (b.length - 84) / 50 = leU32At b 80 := by omega
  refine ⟨?_, hq, by omega, by omega, _, by rw [hm], ?_, ?_⟩
  · rw [List.length_drop]
    simp only [InputTriangleStride]
    omega
  · rw [hq]; rfl
  · rw [hq]; exact hl

set_option maxRecDepth 100000 in
/-- C18 at the one-triangle file: 134 bytes, one triangle declared and one
recomputed. -/
theorem C18_recomputed_count_witness :
    (StlImporter.doOpenData false { _in := none } oneTriangleFile).2 = none ∧
    ((oneTriangleFile.drop 84).length / InputTriangleStride = leU32At oneTriangleFile 80 ∧
    (oneTriangleFile.length - 84) / 50 = leU32At oneTriangleFile 80 ∧
    (oneTriangleFile.length - 84) % 50 = 0 ∧
    84 + 50 * ((oneTriangleFile.length - 84) / 50) = oneTriangleFile.length ∧
    ∃ mesh, (StlImporter.doMesh false (fun _ => 0)
        (StlImporter.doOpenData false { _in := none } oneTriangleFile).1).1 = some mesh ∧
      mesh.attributes.map (fun a => a.data.size) =
        [3 * ((oneTriangleFile.length - 84) / 50), 3 * ((oneTriangleFile.length - 84) / 50)] ∧
      mesh.vertexData.length = 72 * ((oneTriangleFile.length - 84) / 50)) :=
  ⟨by decide,
   C18_recomputed_count false (fun _ => 0) { _in := none } oneTriangleFile (by decide)⟩

/-! ## OpenDDL properties: claim C19 -/

/-- C19: `isPropertyType<T>` holds for `bool` exactly at `Bool`, for `Int`
exactly at `Integral`, `Binary` and `Character`, for `Float` exactly at
`Float`, and for `std::string` exactly at `String` and `Reference`; the
assertion of `as<T>()` passes exactly when `isPropertyType<T>` holds of the
type of the property; and when it holds, `as<T>()` is the element at index
`position` of the data array of the document for `T`. -/
theorem C19_property_as (p : OpenDdl.Property) (T : OpenDdl.PropertyCType) :
    (∀ type, OpenDdl.isPropertyType OpenDdl.PropertyCType.bool type = true ↔
      type = OpenDdl.InternalPropertyType.Bool) ∧
    (∀ type, OpenDdl.isPropertyType OpenDdl.PropertyCType.int type = true ↔
      type = OpenDdl.InternalPropertyType.Integral ∨
      type = OpenDdl.InternalPropertyType.Binary ∨
      type = OpenDdl.InternalPropertyType.Character) ∧
    (∀ type, OpenDdl.isPropertyType OpenDdl.PropertyCType.float type = true ↔
      type = OpenDdl.InternalPropertyType.Float) ∧
    (∀ type, OpenDdl.isPropertyType OpenDdl.PropertyCType.string type = true ↔
      type = OpenDdl.InternalPropertyType.String ∨
      type = OpenDdl.InternalPropertyType.Reference) ∧
    (p.as T = OpenDdl.AsResult.notCompatible ↔
      OpenDdl.isPropertyType T p._data.type = false) ∧
    (OpenDdl.isPropertyType T p._data.type = true →
      ∀ a, (p._document.data T)[p._data.position]? = some a →
        p.as T = OpenDdl.AsResult.value a) := by
  refine ⟨fun type => ?_, fun type => ?_, fun type => ?_, fun type => ?_, ?_, fun h a ha => ?_⟩
  · cases type <;> simp [OpenDdl.isPropertyType]
  · cases type <;> simp [OpenDdl.isPropertyType]
  · cases type <;> simp [OpenDdl.isPropertyType]
  · cases type <;> simp [OpenDdl.isPropertyType]
  · unfold OpenDdl.Property.as
    cases h : OpenDdl.isPropertyType T p._data.type with
    | false => simp
    | true =>
      cases hd : (p._document.data T)[p._data.position]? with
      | none => simp
      | some a => simp
  · simp [OpenDdl.Property.as, h, ha]

/-- C19 at the sample document: its second property, a Character at position
1, read as `Int` is the integer 97, and read as `bool` is refused; its
fourth, a Reference at position 1, read as `std::string` is "ref". -/
theorem C19_property_as_witness :
    OpenDdl.Property.as
        { _document := OpenDdl.sampleDocument,
          _data := { identifier := 1, type := OpenDdl.InternalPropertyType.Character,
                     position := 1 } }
        OpenDdl.PropertyCType.int = OpenDdl.AsResult.value (97 : Int) ∧
    OpenDdl.Property.as
        { _document := OpenDdl.sampleDocument,
          _data := { identifier := 3, type := OpenDdl.InternalPropertyType.Reference,
                     position := 1 } }
        OpenDdl.PropertyCType.string = OpenDdl.AsResult.value "ref" ∧
    OpenDdl.Property.as
        { _document := OpenDdl.sampleDocument,
          _data := { identifier := 1, type := OpenDdl.InternalPropertyType.Character,
                     position := 1 } }
        OpenDdl.PropertyCType.bool = OpenDdl.AsResult.notCompatible :=
  ⟨(C19_property_as
      { _document := OpenDdl.sampleDocument,
        _data := { identifier := 1, type := OpenDdl.InternalPropertyType.Character,
                   position := 1 } }
      OpenDdl.PropertyCType.int).2.2.2.2.2 rfl (97 : Int) rfl,
   (C19_property_as
      { _document := OpenDdl.sampleDocument,
        _data := { identifier := 3, type := OpenDdl.InternalPropertyType.Reference,
                   position := 1 } }
      OpenDdl.PropertyCType.string).2.2.2.2.2 rfl "ref" rfl,
   (C19_property_as
      { _document := OpenDdl.sampleDocument,
        _data := { identifier := 1, type := OpenDdl.InternalPropertyType.Character,
                   position := 1 } }
      OpenDdl.PropertyCType.bool).2.2.2.2.1.2 rfl⟩
